import Mathlib

/-!
Shallow embedding of `src/Storages/MergeTree/DataPartStorageOnDisk.cpp`
(ClickHouse data-part storage on a local disk), together with proofs of the
specification's testable properties about it.

Paths are modelled as lists of path components.  The disk is modelled as an
explicit filesystem state: an association list of regular files (path and
content) plus the set of directories.  Every disk primitive used by the
source (`removeSharedFiles`, `removeSharedRecursive`, `removeDirectory`,
`moveDirectory`, `copy`, `replaceFile`, ...) is given an explicit state
transition, and the storage operations additionally record the trace of disk
operations they issue, so that properties such as "no recursive scan is
performed on the fast path" are statable.
-/

namespace CH

/-- A filesystem path, as a list of components (the source uses
`fs::path` concatenation via `operator/`). -/
abbrev Path := List String

/-- Transaction identifier.  `TransactionVersionMetadata.cpp` is not part of
the sources; modelled from the spec, which names the sentinel values
`PrehistoricTID` (legacy parts) and `DummyTID` (interrupted construction)
besides normal TIDs. -/
inductive TID where
  | prehistoric
  | dummy
  | normal (startCSN localTID : Nat) (host : String)
deriving DecidableEq, Repr

/-- Modelled from the spec: sentinel commit-sequence-number for parts that
predate transaction support. -/
def PrehistoricCSN : Nat := 1

/-- Modelled from the spec: sentinel commit-sequence-number for a part whose
creating transaction never committed. -/
def RolledBackCSN : Nat := 2

/-- Modelled from the spec: per-part transaction state (creation TID/CSN and
optional removal TID/CSN).  The concrete struct lives in
`TransactionVersionMetadata.h`, which is not under the sources. -/
structure VersionMetadata where
  creation_tid : TID := .dummy
  creation_csn : Nat := 0
  removal_tid : Option TID := none
  removal_csn : Nat := 0
deriving DecidableEq, Repr

/-- Content of a regular file.  `versionRec` is the serialized creation
record of version metadata.  Modelled from the spec: the on-disk format of
`txn_version.txt` (`VersionMetadata::write`/`read`, in
`TransactionVersionMetadata.cpp`, not under the sources) is a deterministic
serialization of the creation TID/CSN that `read` inverts. -/
inductive FileContent where
  | str (s : String)
  | versionRec (tid : TID) (csn : Nat)
deriving DecidableEq, Repr

/-- Filesystem state of the disk backing a volume: regular files with their
content, and the set of existing directories. -/
structure FS where
  files : List (Path × FileContent)
  dirs : List Path
deriving DecidableEq, Repr

/-- Names of all regular files. -/
def FS.fileNames (fs : FS) : List Path := fs.files.map Prod.fst

/-- A regular file exists at `p`. -/
abbrev FS.IsFile (fs : FS) (p : Path) : Prop := p ∈ fs.fileNames

/-- Something (file or directory) exists at `p` (the disk's `exists`). -/
abbrev FS.ExistsPath (fs : FS) (p : Path) : Prop := p ∈ fs.fileNames ∨ p ∈ fs.dirs

/-- `p` lies in the subtree rooted at `d` (including `d` itself). -/
abbrev InSubtree (d p : Path) : Prop := d <+: p

/-- Read the content of the file at `p`, if present. -/
def FS.readFile? (fs : FS) (p : Path) : Option FileContent :=
  (fs.files.find? (fun e => e.1 == p)).map (·.2)

/-- Erase the regular file at `p` (no-op when absent). -/
def FS.eraseFile (fs : FS) (p : Path) : FS :=
  { fs with files := fs.files.filter (fun e => decide (e.1 ≠ p)) }

/-- Disk `removeFile`: fails when no regular file is at `p`. -/
def FS.removeFile? (fs : FS) (p : Path) : Option FS :=
  if fs.IsFile p then some (fs.eraseFile p) else none

/-- Disk `removeFileIfExists`. -/
def FS.removeFileIfExists (fs : FS) (p : Path) : FS := fs.eraseFile p

/-- Disk `writeFile` in rewrite mode: creates or replaces the file at `p`. -/
def FS.writeFile (fs : FS) (p : Path) (c : FileContent) : FS :=
  { fs with files := (p, c) :: (fs.files.filter (fun e => decide (e.1 ≠ p))) }

/-- Disk `replaceFile src dst`: atomically renames `src` over `dst`
(no-op when `src` is missing; the callers guarantee it exists). -/
def FS.replaceFile (fs : FS) (src dst : Path) : FS :=
  match fs.readFile? src with
  | some c => (fs.eraseFile src).writeFile dst c
  | none => fs

/-- Disk `removeSharedRecursive`/`removeRecursive` at `d`: removes the whole
subtree rooted at `d`, the directory `d` included. -/
def FS.removeTree (fs : FS) (d : Path) : FS :=
  { files := fs.files.filter (fun e => decide (¬ InSubtree d e.1)),
    dirs := fs.dirs.filter (fun q => decide (¬ InSubtree d q)) }

/-- Disk `removeDirectory`: succeeds only on an existing, empty directory. -/
def FS.removeDirectory? (fs : FS) (d : Path) : Option FS :=
  if d ∈ fs.dirs
      ∧ (∀ e ∈ fs.files, ¬ InSubtree d e.1)
      ∧ (∀ q ∈ fs.dirs, InSubtree d q → q = d) then
    some { fs with dirs := fs.dirs.filter (fun q => decide (q ≠ d)) }
  else none

/-- Rebase one path for a directory move: paths inside the `src` subtree are
re-rooted at `dst`, all others are unchanged. -/
def rebase (src dst p : Path) : Path :=
  if src.isPrefixOf p then dst ++ p.drop src.length else p

/-- Disk `moveDirectory src dst` (the callers guarantee `src` exists and the
`dst` subtree is empty). -/
def FS.moveDir (fs : FS) (src dst : Path) : FS :=
  { files := fs.files.map (fun e => (rebase src dst e.1, e.2)),
    dirs := fs.dirs.map (rebase src dst) }

/-- Disk `createDirectories p` (modelled as creating `p` itself). -/
def FS.mkdir (fs : FS) (p : Path) : FS :=
  if p ∈ fs.dirs then fs else { fs with dirs := p :: fs.dirs }

/-- Disk `copy src dst` as used by `clone`: copies the contents of the `src`
directory into `dst` (the source passes `getFullRelativePath()`, which ends in
a path separator, so the contents land directly under `dst`). -/
def FS.copyDir (fs : FS) (src dst : Path) : FS :=
  { files := fs.files ++ (fs.files.filterMap (fun e =>
      if src.isPrefixOf e.1 then some (dst ++ e.1.drop src.length, e.2) else none)),
    dirs := fs.dirs ++ (fs.dirs.filterMap (fun q =>
      if src.isPrefixOf q then some (dst ++ q.drop src.length) else none)) }

/-- Trace of the disk operations a storage operation issues, in order. -/
inductive DiskOp where
  | removeSharedRecursive (p : Path)
  | removeSharedFiles (req : List (Path × Bool))
  | removeDirectory (p : Path)
  | moveDirectory (src dst : Path)
  | setLastModified (p : Path)
  | removeRecursive (p : Path)
  | removeFileIfExists (p : Path)
  | copyDir (src dst : Path)
  | createDirectories (p : Path)
  | replaceFile (src dst : Path)
  | writeFile (p : Path)
  | removeFile (p : Path)
deriving DecidableEq, Repr

/-- One entry of the checksum manifest (`MergeTreeDataPartChecksum`):
recorded file size and 128-bit hash. -/
structure ChecksumEntry where
  file_size : Nat
  file_hash : Nat
deriving DecidableEq, Repr

/-- The checksum manifest (`MergeTreeDataPartChecksums`): an ordered mapping
from relative file name to its checksum entry. -/
structure Checksums where
  files : List (String × ChecksumEntry)
deriving DecidableEq, Repr

/-- `MergeTreeDataPartChecksums::empty()`. -/
def Checksums.isEmpty (c : Checksums) : Bool := c.files.isEmpty

/-- The part-storage handle: the disk location fields of
`DataPartStorageOnDisk` (the volume is represented by the explicit `FS`
state each operation takes). -/
structure DataPartStorageOnDisk where
  root_path : Path
  part_dir : String
deriving DecidableEq, Repr

namespace DataPartStorageOnDisk

/-- The part directory's path, `fs::path(root_path) / part_dir`. -/
def partPath (st : DataPartStorageOnDisk) : Path := st.root_path ++ [st.part_dir]

/-- The batch of per-file removal requests built by `clearDirectory`'s fast
path: every manifest entry not recorded as a projection directory, then
`checksums.txt` and `columns.txt` (must exist), then
`default_compression_codec.txt` and `delete-on-destroy.txt` with
`if_exists = true`, then (outside projections) `txn_version.txt` with
`if_exists = true`. -/
def clearRequest (dir : Path) (checksums : Checksums) (skip : List String)
    (isProjection : Bool) : List (Path × Bool) :=
  (((checksums.files.map Prod.fst).filter (fun f => decide (f ∉ skip))).map
    (fun f => (dir ++ [f], false)))
  ++ [(dir ++ ["checksums.txt"], false), (dir ++ ["columns.txt"], false),
      (dir ++ ["default_compression_codec.txt"], true),
      (dir ++ ["delete-on-destroy.txt"], true)]
  ++ (if isProjection then [] else [(dir ++ ["txn_version.txt"], true)])

/-- `IDisk::removeSharedFiles` over the request batch: removes each file in
order; a missing file is skipped when its `if_exists` flag is set and is an
error otherwise.  On error the state reached so far is returned in the
`error` case (the files already removed stay removed, as with a thrown
exception in the source). -/
def removeBatch (fs : FS) : List (Path × Bool) → Except FS FS
  | [] => .ok fs
  | (p, ifExists) :: rest =>
    if fs.IsFile p then removeBatch (fs.eraseFile p) rest
    else if ifExists then removeBatch fs rest
    else .error fs

/-- `DataPartStorageOnDisk::clearDirectory`: with an empty manifest, remove
the directory recursively; otherwise try the targeted per-file batch followed
by `removeDirectory`, falling back to recursive removal of the directory if
either step fails. -/
def clearDirectory (fs : FS) (dir : Path) (checksums : Checksums)
    (skip : List String) (isProjection : Bool) : FS × List DiskOp :=
  if checksums.isEmpty then
    (fs.removeTree dir, [.removeSharedRecursive dir])
  else
    match removeBatch fs (clearRequest dir checksums skip isProjection) with
    | .error fsPartial =>
      (fsPartial.removeTree dir,
       [.removeSharedFiles (clearRequest dir checksums skip isProjection),
        .removeSharedRecursive dir])
    | .ok fs1 =>
      match fs1.removeDirectory? dir with
      | some fs2 =>
        (fs2, [.removeSharedFiles (clearRequest dir checksums skip isProjection),
               .removeDirectory dir])
      | none =>
        (fs1.removeTree dir,
         [.removeSharedFiles (clearRequest dir checksums skip isProjection),
          .removeDirectory dir, .removeSharedRecursive dir])

/-- One step of `remove`'s projection loop: clear the projection's
subdirectory under the moved part directory and extend the trace. -/
def clearStep (st : DataPartStorageOnDisk) (acc : FS × List DiskOp)
    (proj : String × Checksums) : FS × List DiskOp :=
  ((clearDirectory acc.1
      (st.root_path ++ ["delete_tmp_" ++ st.part_dir] ++ [proj.1 ++ ".proj"])
      proj.2 [] true).1,
   acc.2 ++ (clearDirectory acc.1
      (st.root_path ++ ["delete_tmp_" ++ st.part_dir] ++ [proj.1 ++ ".proj"])
      proj.2 [] true).2)

/-- The final step of `remove`: clear the moved part directory itself,
skipping the already-processed projection directory names. -/
def clearTop (st : DataPartStorageOnDisk) (acc : FS × List DiskOp)
    (checksums : Checksums) (skip : List String) : FS × List DiskOp :=
  ((clearDirectory acc.1 (st.root_path ++ ["delete_tmp_" ++ st.part_dir])
      checksums skip false).1,
   acc.2 ++ (clearDirectory acc.1 (st.root_path ++ ["delete_tmp_" ++ st.part_dir])
      checksums skip false).2)

/-- `remove` after the move to the `delete_tmp_` sibling: clear each
projection's subdirectory (recording their names), then clear the moved
directory itself skipping those names. -/
def removeProjClear (st : DataPartStorageOnDisk) (fs1 : FS) (ops1 : List DiskOp)
    (checksums : Checksums) (projections : List (String × Checksums)) :
    FS × List DiskOp :=
  clearTop st (projections.foldl (clearStep st) (fs1, ops1)) checksums
    (projections.map (fun proj => proj.1 ++ ".proj"))

/-- `remove` after the stale-sibling cleanup: a missing source directory is
treated as already removed (logged, not propagated); otherwise the part
directory is moved to its `delete_tmp_` sibling and cleared. -/
def removeRest (st : DataPartStorageOnDisk) (fs0 : FS) (ops0 : List DiskOp)
    (checksums : Checksums) (projections : List (String × Checksums)) :
    FS × List DiskOp :=
  if ¬ fs0.ExistsPath (st.root_path ++ [st.part_dir]) then (fs0, ops0)
  else
    removeProjClear st
      (fs0.moveDir (st.root_path ++ [st.part_dir])
        (st.root_path ++ ["delete_tmp_" ++ st.part_dir]))
      (ops0 ++ [DiskOp.moveDirectory (st.root_path ++ [st.part_dir])
        (st.root_path ++ ["delete_tmp_" ++ st.part_dir])])
      checksums projections

/-- `DataPartStorageOnDisk::remove`: rename the part directory to its
`delete_tmp_` sibling (recursively deleting a stale sibling first, and
treating a missing source as already removed), clear each projection's
subdirectory, then clear the moved directory itself, skipping the projection
directory names. -/
def remove (st : DataPartStorageOnDisk) (fs : FS)
    (checksums : Checksums) (projections : List (String × Checksums)) :
    FS × List DiskOp :=
  if fs.ExistsPath (st.root_path ++ ["delete_tmp_" ++ st.part_dir]) then
    removeRest st (fs.removeTree (st.root_path ++ ["delete_tmp_" ++ st.part_dir]))
      [DiskOp.removeSharedRecursive (st.root_path ++ ["delete_tmp_" ++ st.part_dir])]
      checksums projections
  else
    removeRest st fs [] checksums projections

/-- One candidate name probed by `getRelativePathForPrefix`:
`prefix_partdir` for try 0 and `prefix_partdir_tryN` afterwards. -/
def relPathCandidate (pfx partDir : String) (n : Nat) : String :=
  (if pfx = "" then "" else pfx ++ "_") ++ partDir
    ++ (if n = 0 then "" else "_try" ++ toString n)

/-- The probing loop of `getRelativePathForPrefix`: at each remaining try,
return the candidate if nothing exists at it, otherwise continue; when tries
run out, return the last probed candidate. -/
def relPathProbe (fs : FS) (full : Path) (pfx partDir : String) :
    Nat → Nat → String
  | tryNo, 0 => relPathCandidate pfx partDir tryNo
  | tryNo, r + 1 =>
    let res := relPathCandidate pfx partDir tryNo
    if fs.ExistsPath (full ++ [res]) then
      if r = 0 then res else relPathProbe fs full pfx partDir (tryNo + 1) r
    else res

/-- `DataPartStorageOnDisk::getRelativePathForPrefix`: probe up to 10
candidate names under `root_path` (or `root_path/detached`). -/
def getRelativePathForPrefix (st : DataPartStorageOnDisk) (fs : FS)
    (pfx : String) (detached : Bool) : String :=
  let full := if detached then st.root_path ++ ["detached"] else st.root_path
  relPathProbe fs full pfx st.part_dir 0 10

/-- Errors thrown by the storage operations (`ErrorCodes` in the source). -/
inductive PartOpError where
  | fileDoesntExist
  | logicalError
  | directoryAlreadyExists
deriving DecidableEq, Repr

/-- `fs::path::has_filename()` of `root / new_relative_path`: false exactly
when the last component of the destination is empty (trailing slash) or the
destination is empty (appending an empty path also leaves a trailing
separator). -/
def pathHasFilename (newRel : List String) : Bool :=
  match newRel.getLast? with
  | some s => s ≠ ""
  | none => false

/-- `DataPartStorageOnDisk::rename`: check source existence, reject a
destination without a filename, handle an existing destination (recursive
delete when opted in, `DIRECTORY_ALREADY_EXISTS` otherwise), then update the
source's modification time, move the directory and update the location
fields.  The returned state and trace reflect everything done before a
throw. -/
def rename (st : DataPartStorageOnDisk) (fs : FS) (newRel : List String)
    (removeNewDirIfExists : Bool) :
    FS × List DiskOp × Except PartOpError DataPartStorageOnDisk :=
  let from_ := st.root_path ++ [st.part_dir]
  if ¬ fs.ExistsPath from_ then
    (fs, [], .error .fileDoesntExist)
  else
    let newPath := st.root_path ++ newRel
    if ¬ pathHasFilename newRel then
      (fs, [], .error .logicalError)
    else if fs.ExistsPath newPath then
      if removeNewDirIfExists then
        (((fs.removeTree newPath).moveDir from_ newPath),
         [.removeRecursive newPath, .setLastModified from_,
          .moveDirectory from_ newPath],
         .ok { root_path := newPath.dropLast, part_dir := newPath.getLastD "" })
      else
        (fs, [], .error .directoryAlreadyExists)
    else
      (fs.moveDir from_ newPath,
       [.setLastModified from_, .moveDirectory from_ newPath],
       .ok { root_path := newPath.dropLast, part_dir := newPath.getLastD "" })

/-- The tail of `clone` shared by both branches: create the destination's
parent, copy the part's contents, then strip the `delete-on-destroy.txt`
marker; returns the new storage bound to the clone. -/
def cloneRest (st : DataPartStorageOnDisk) (dst : Path) (dirPath : String)
    (fs0 : FS) (ops0 : List DiskOp) : FS × List DiskOp × DataPartStorageOnDisk :=
  (((fs0.mkdir dst).copyDir (st.root_path ++ [st.part_dir])
      (dst ++ [dirPath])).removeFileIfExists
    (dst ++ [dirPath] ++ ["delete-on-destroy.txt"]),
   ops0 ++ [DiskOp.createDirectories dst,
            DiskOp.copyDir (st.root_path ++ [st.part_dir]) (dst ++ [dirPath]),
            DiskOp.removeFileIfExists (dst ++ [dirPath] ++ ["delete-on-destroy.txt"])],
   { root_path := dst, part_dir := dirPath })

/-- `DataPartStorageOnDisk::clone`: recursively delete an already existing
destination, then create, copy and strip the marker. -/
def clone (st : DataPartStorageOnDisk) (fs : FS) (dst : Path)
    (dirPath : String) : FS × List DiskOp × DataPartStorageOnDisk :=
  if fs.ExistsPath (dst ++ [dirPath]) then
    cloneRest st dst dirPath (fs.removeTree (dst ++ [dirPath]))
      [DiskOp.removeRecursive (dst ++ [dirPath])]
  else
    cloneRest st dst dirPath fs []

/-- Modelled from the spec: `VersionMetadata::write` serializes the creation
TID and CSN (the implementation is in `TransactionVersionMetadata.cpp`,
which is not under the sources). -/
def serializeVersion (v : VersionMetadata) : FileContent :=
  .versionRec v.creation_tid v.creation_csn

/-- Modelled from the spec: `VersionMetadata::read` parses the creation
record written by `VersionMetadata::write`; any other content is a parse
failure. -/
def parseVersion (c : FileContent) : Option (TID × Nat) :=
  match c with
  | .versionRec tid csn => some (tid, csn)
  | .str _ => none

/-- Path of the part's `txn_version.txt`. -/
def versionFilePath (st : DataPartStorageOnDisk) : Path :=
  st.root_path ++ [st.part_dir, "txn_version.txt"]

/-- Path of the temporary sibling `txn_version.txt.tmp`. -/
def tmpVersionFilePath (st : DataPartStorageOnDisk) : Path :=
  st.root_path ++ [st.part_dir, "txn_version.txt.tmp"]

/-- `DataPartStorageOnDisk::writeVersionMetadata`: write the serialized
metadata to `txn_version.txt.tmp`, sync it, then atomically replace
`txn_version.txt` with it. -/
def writeVersionMetadata (st : DataPartStorageOnDisk) (fs : FS)
    (v : VersionMetadata) : FS × List DiskOp :=
  let fs1 := fs.writeFile (st.tmpVersionFilePath) (serializeVersion v)
  let fs2 := fs1.replaceFile (st.tmpVersionFilePath) (st.versionFilePath)
  (fs2, [.writeFile (st.tmpVersionFilePath),
         .replaceFile (st.tmpVersionFilePath) (st.versionFilePath)])

/-- `DataPartStorageOnDisk::loadVersionMetadata`: if `txn_version.txt`
exists, read it (removing a stale `.tmp` sibling); if neither it nor the
`.tmp` sibling exists, report the prehistoric state; if only the `.tmp`
sibling exists, report the rolled-back state and remove the `.tmp` file. -/
def loadVersionMetadata (st : DataPartStorageOnDisk) (fs : FS)
    (v : VersionMetadata) : Option (VersionMetadata × FS) :=
  if fs.IsFile st.versionFilePath then
    match fs.readFile? st.versionFilePath with
    | some c =>
      match parseVersion c with
      | some (tid, csn) =>
        let v' := { v with creation_tid := tid, creation_csn := csn }
        if fs.IsFile st.tmpVersionFilePath then
          some (v', fs.eraseFile st.tmpVersionFilePath)
        else
          some (v', fs)
      | none => none
    | none => none
  else if ¬ fs.IsFile st.tmpVersionFilePath then
    some ({ v with creation_tid := .prehistoric, creation_csn := PrehistoricCSN }, fs)
  else
    some ({ v with creation_tid := .dummy, creation_csn := RolledBackCSN },
          fs.eraseFile st.tmpVersionFilePath)

end DataPartStorageOnDisk

open DataPartStorageOnDisk

/-! ## Basic lemmas about the filesystem model -/

theorem FS.mem_fileNames_eraseFile (fs : FS) (q p : Path) :
    p ∈ (fs.eraseFile q).fileNames ↔ p ∈ fs.fileNames ∧ p ≠ q := by
  simp only [FS.eraseFile, FS.fileNames, List.mem_map, List.mem_filter,
    decide_eq_true_eq]
  constructor
  · rintro ⟨e, ⟨he, hne⟩, rfl⟩
    exact ⟨⟨e, he, rfl⟩, hne⟩
  · rintro ⟨⟨e, he, rfl⟩, hne⟩
    exact ⟨e, ⟨he, hne⟩, rfl⟩

theorem FS.dirs_eraseFile (fs : FS) (q : Path) : (fs.eraseFile q).dirs = fs.dirs := rfl

theorem find?_and_left {α : Type} (l : List α) (p q : α → Bool)
    (h : ∀ a, q a = true → p a = true) :
    l.find? (fun a => decide (p a = true ∧ q a = true)) = l.find? q := by
  induction l with
  | nil => rfl
  | cons a t ih =>
    cases hq : q a with
    | true =>
      have hp := h a hq
      have h1 : decide (p a = true ∧ q a = true) = true := by simp [hp, hq]
      rw [List.find?_cons, List.find?_cons, h1, hq]
    | false =>
      have h1 : decide (p a = true ∧ q a = true) = false := by simp [hq]
      rw [List.find?_cons, List.find?_cons, h1, hq]
      exact ih

theorem find?_filter_ne (l : List (Path × FileContent)) (q p : Path) (hpq : p ≠ q) :
    (l.filter (fun e => decide (e.1 ≠ q))).find? (fun e => e.1 == p)
      = l.find? (fun e => e.1 == p) := by
  rw [List.find?_filter]
  apply find?_and_left
  intro a ha
  have h2 : a.1 = p := by simpa using ha
  simp only [h2, ne_eq, decide_eq_true_eq]
  exact hpq

theorem FS.readFile?_eraseFile (fs : FS) (q p : Path) :
    (fs.eraseFile q).readFile? p = if p = q then none else fs.readFile? p := by
  by_cases h : p = q
  · subst h
    simp only [FS.readFile?, FS.eraseFile, if_true]
    rw [List.find?_eq_none.2]
    · rfl
    · intro e he
      have := (List.mem_filter.1 he).2
      simp only [decide_eq_true_eq] at this
      simpa using this
  · simp only [FS.readFile?, FS.eraseFile, if_neg h]
    rw [find?_filter_ne _ _ _ h]

theorem FS.mem_fileNames_writeFile (fs : FS) (q : Path) (c : FileContent) (p : Path) :
    p ∈ (fs.writeFile q c).fileNames ↔ p = q ∨ (p ∈ fs.fileNames ∧ p ≠ q) := by
  simp only [FS.writeFile, FS.fileNames, List.map_cons, List.mem_cons]
  constructor
  · rintro (h | h)
    · exact Or.inl h
    · right
      have := (FS.mem_fileNames_eraseFile fs q p).1 h
      exact this
  · rintro (rfl | h)
    · exact Or.inl rfl
    · exact Or.inr ((FS.mem_fileNames_eraseFile fs q p).2 h)

theorem FS.readFile?_writeFile (fs : FS) (q : Path) (c : FileContent) (p : Path) :
    (fs.writeFile q c).readFile? p = if p = q then some c else fs.readFile? p := by
  by_cases h : p = q
  · subst h
    simp [FS.readFile?, FS.writeFile]
  · have hq : (q == p) = false := by
      simp only [beq_eq_false_iff_ne, ne_eq]
      exact fun hqp => h hqp.symm
    simp only [FS.readFile?, FS.writeFile, List.find?_cons, hq, if_neg h]
    exact congrArg _ (find?_filter_ne fs.files q p h)

theorem FS.dirs_writeFile (fs : FS) (q : Path) (c : FileContent) :
    (fs.writeFile q c).dirs = fs.dirs := rfl

theorem FS.mem_fileNames_removeTree (fs : FS) (d p : Path) :
    p ∈ (fs.removeTree d).fileNames ↔ p ∈ fs.fileNames ∧ ¬ InSubtree d p := by
  simp only [FS.removeTree, FS.fileNames, List.mem_map, List.mem_filter,
    decide_eq_true_eq]
  constructor
  · rintro ⟨e, ⟨he, hne⟩, rfl⟩
    exact ⟨⟨e, he, rfl⟩, hne⟩
  · rintro ⟨⟨e, he, rfl⟩, hne⟩
    exact ⟨e, ⟨he, hne⟩, rfl⟩

theorem FS.mem_dirs_removeTree (fs : FS) (d p : Path) :
    p ∈ (fs.removeTree d).dirs ↔ p ∈ fs.dirs ∧ ¬ InSubtree d p := by
  simp [FS.removeTree, List.mem_filter]

theorem find?_filter_notSubtree (l : List (Path × FileContent)) (d p : Path)
    (h : ¬ InSubtree d p) :
    (l.filter (fun e => decide (¬ InSubtree d e.1))).find? (fun e => e.1 == p)
      = l.find? (fun e => e.1 == p) := by
  rw [List.find?_filter]
  apply find?_and_left
  intro a ha
  have h2 : a.1 = p := by simpa using ha
  simp only [h2, decide_eq_true_eq]
  exact h

theorem FS.readFile?_removeTree (fs : FS) (d p : Path) (h : ¬ InSubtree d p) :
    (fs.removeTree d).readFile? p = fs.readFile? p := by
  simp only [FS.readFile?, FS.removeTree]
  rw [find?_filter_notSubtree _ _ _ h]

/-! ## Path helper lemmas -/

theorem append_singleton_inj {root : Path} {a b : String}
    (h : root ++ [a] = root ++ [b]) : a = b := by
  have h2 := List.append_cancel_left h
  simpa using h2

theorem versionFilePath_ne_tmp (st : DataPartStorageOnDisk) :
    st.versionFilePath ≠ st.tmpVersionFilePath := by
  intro h
  have h2 := List.append_cancel_left
    (h : st.root_path ++ [st.part_dir, "txn_version.txt"]
       = st.root_path ++ [st.part_dir, "txn_version.txt.tmp"])
  simp at h2

/-! ## Claim C2: crash-residue classification in loadVersionMetadata -/

/-- Claim C2: when the real version file `txn_version.txt` is absent,
`loadVersionMetadata` classifies by the presence of the `.tmp` sibling: with
no `.tmp` file it reports the Prehistoric state (PrehistoricTID and
PrehistoricCSN) and leaves the filesystem untouched; with a `.tmp` file it
reports the RolledBack state (DummyTID and RolledBackCSN) and removes the
`.tmp` file from disk, touching nothing else. -/
theorem claim_C2 (st : DataPartStorageOnDisk) (fs : FS) (v : VersionMetadata)
    (hreal : ¬ fs.IsFile st.versionFilePath) :
    (¬ fs.IsFile st.tmpVersionFilePath →
      st.loadVersionMetadata fs v =
        some ({ v with creation_tid := .prehistoric, creation_csn := PrehistoricCSN }, fs))
    ∧ (fs.IsFile st.tmpVersionFilePath →
      st.loadVersionMetadata fs v =
        some ({ v with creation_tid := .dummy, creation_csn := RolledBackCSN },
              fs.eraseFile st.tmpVersionFilePath)
      ∧ ¬ (fs.eraseFile st.tmpVersionFilePath).IsFile st.tmpVersionFilePath
      ∧ (∀ p, p ≠ st.tmpVersionFilePath →
          (fs.eraseFile st.tmpVersionFilePath).readFile? p = fs.readFile? p)
      ∧ (fs.eraseFile st.tmpVersionFilePath).dirs = fs.dirs) := by
  constructor
  · intro htmp
    unfold DataPartStorageOnDisk.loadVersionMetadata
    rw [if_neg hreal, if_pos htmp]
  · intro htmp
    refine ⟨?_, ?_, ?_, rfl⟩
    · unfold DataPartStorageOnDisk.loadVersionMetadata
      rw [if_neg hreal, if_neg (fun hc => hc htmp)]
    · intro hmem
      exact ((FS.mem_fileNames_eraseFile fs _ _).1 hmem).2 rfl
    · intro p hp
      rw [FS.readFile?_eraseFile, if_neg hp]

/-- Witness for C2 at a concrete part whose directory holds only a stale
`txn_version.txt.tmp`. -/
theorem claim_C2_witness :
    (¬ (FS.mk [(["store", "all_1_1_0", "txn_version.txt.tmp"], .str "garbage")]
          [["store"], ["store", "all_1_1_0"]]).IsFile
        ((DataPartStorageOnDisk.mk ["store"] "all_1_1_0").versionFilePath))
    ∧ ((¬ (FS.mk [(["store", "all_1_1_0", "txn_version.txt.tmp"], .str "garbage")]
          [["store"], ["store", "all_1_1_0"]]).IsFile
        ((DataPartStorageOnDisk.mk ["store"] "all_1_1_0").tmpVersionFilePath) →
      (DataPartStorageOnDisk.mk ["store"] "all_1_1_0").loadVersionMetadata
          (FS.mk [(["store", "all_1_1_0", "txn_version.txt.tmp"], .str "garbage")]
            [["store"], ["store", "all_1_1_0"]]) {} =
        some ({ ({} : VersionMetadata) with
                  creation_tid := .prehistoric
                  creation_csn := PrehistoricCSN },
              FS.mk [(["store", "all_1_1_0", "txn_version.txt.tmp"], .str "garbage")]
                [["store"], ["store", "all_1_1_0"]]))
    ∧ ((FS.mk [(["store", "all_1_1_0", "txn_version.txt.tmp"], .str "garbage")]
          [["store"], ["store", "all_1_1_0"]]).IsFile
        ((DataPartStorageOnDisk.mk ["store"] "all_1_1_0").tmpVersionFilePath) →
      (DataPartStorageOnDisk.mk ["store"] "all_1_1_0").loadVersionMetadata
          (FS.mk [(["store", "all_1_1_0", "txn_version.txt.tmp"], .str "garbage")]
            [["store"], ["store", "all_1_1_0"]]) {} =
        some ({ ({} : VersionMetadata) with
                  creation_tid := .dummy
                  creation_csn := RolledBackCSN },
              (FS.mk [(["store", "all_1_1_0", "txn_version.txt.tmp"], .str "garbage")]
                [["store"], ["store", "all_1_1_0"]]).eraseFile
                ((DataPartStorageOnDisk.mk ["store"] "all_1_1_0").tmpVersionFilePath))
      ∧ ¬ ((FS.mk [(["store", "all_1_1_0", "txn_version.txt.tmp"], .str "garbage")]
            [["store"], ["store", "all_1_1_0"]]).eraseFile
            ((DataPartStorageOnDisk.mk ["store"] "all_1_1_0").tmpVersionFilePath)).IsFile
          ((DataPartStorageOnDisk.mk ["store"] "all_1_1_0").tmpVersionFilePath)
      ∧ (∀ p, p ≠ (DataPartStorageOnDisk.mk ["store"] "all_1_1_0").tmpVersionFilePath →
          ((FS.mk [(["store", "all_1_1_0", "txn_version.txt.tmp"], .str "garbage")]
              [["store"], ["store", "all_1_1_0"]]).eraseFile
              ((DataPartStorageOnDisk.mk ["store"] "all_1_1_0").tmpVersionFilePath)).readFile? p
            = (FS.mk [(["store", "all_1_1_0", "txn_version.txt.tmp"], .str "garbage")]
                [["store"], ["store", "all_1_1_0"]]).readFile? p)
      ∧ ((FS.mk [(["store", "all_1_1_0", "txn_version.txt.tmp"], .str "garbage")]
            [["store"], ["store", "all_1_1_0"]]).eraseFile
            ((DataPartStorageOnDisk.mk ["store"] "all_1_1_0").tmpVersionFilePath)).dirs
          = (FS.mk [(["store", "all_1_1_0", "txn_version.txt.tmp"], .str "garbage")]
              [["store"], ["store", "all_1_1_0"]]).dirs)) :=
  ⟨by decide, claim_C2 (DataPartStorageOnDisk.mk ["store"] "all_1_1_0")
    (FS.mk [(["store", "all_1_1_0", "txn_version.txt.tmp"], .str "garbage")]
      [["store"], ["store", "all_1_1_0"]]) {} (by decide)⟩

/-! ## Claim C3: version metadata round-trip -/

/-- Claim C3: writing version metadata and loading it back (with no
intervening mutation) succeeds and returns the same creation TID and
creation CSN. -/
theorem claim_C3 (st : DataPartStorageOnDisk) (fs : FS) (v v₀ : VersionMetadata) :
    ∃ v' fs'',
      st.loadVersionMetadata (st.writeVersionMetadata fs v).1 v₀ = some (v', fs'')
      ∧ v'.creation_tid = v.creation_tid ∧ v'.creation_csn = v.creation_csn := by
  have hne : st.tmpVersionFilePath ≠ st.versionFilePath :=
    fun h => versionFilePath_ne_tmp st h.symm
  have hfs2 : (st.writeVersionMetadata fs v).1
      = ((fs.writeFile st.tmpVersionFilePath (serializeVersion v)).eraseFile
          st.tmpVersionFilePath).writeFile st.versionFilePath (serializeVersion v) := by
    show (fs.writeFile st.tmpVersionFilePath (serializeVersion v)).replaceFile
        st.tmpVersionFilePath st.versionFilePath = _
    unfold FS.replaceFile
    rw [FS.readFile?_writeFile]
    simp
  have hisreal : ((st.writeVersionMetadata fs v).1).IsFile st.versionFilePath := by
    rw [hfs2]
    exact (FS.mem_fileNames_writeFile _ _ _ _).2 (Or.inl rfl)
  have hreadreal : ((st.writeVersionMetadata fs v).1).readFile? st.versionFilePath
      = some (serializeVersion v) := by
    rw [hfs2, FS.readFile?_writeFile]
    simp
  have htmp : ¬ ((st.writeVersionMetadata fs v).1).IsFile st.tmpVersionFilePath := by
    rw [hfs2]
    intro hmem
    rcases (FS.mem_fileNames_writeFile _ _ _ _).1 hmem with h | ⟨h1, _⟩
    · exact hne h
    · exact ((FS.mem_fileNames_eraseFile _ _ _).1 h1).2 rfl
  refine ⟨{ v₀ with creation_tid := v.creation_tid, creation_csn := v.creation_csn },
    (st.writeVersionMetadata fs v).1, ?_, rfl, rfl⟩
  unfold DataPartStorageOnDisk.loadVersionMetadata
  rw [if_pos hisreal, hreadreal]
  simp only [serializeVersion, parseVersion]
  rw [if_neg htmp]

/-! ## Claim C6: bounded collision probing for detach names -/

/-- The probing loop returns the first free candidate when one appears
within the remaining tries. -/
theorem relPathProbe_free (fs : FS) (full : Path) (pfx partDir : String) :
    ∀ (j r tryNo : Nat), j < r →
      (∀ k, k < j → fs.ExistsPath (full ++ [relPathCandidate pfx partDir (tryNo + k)])) →
      ¬ fs.ExistsPath (full ++ [relPathCandidate pfx partDir (tryNo + j)]) →
      relPathProbe fs full pfx partDir tryNo r = relPathCandidate pfx partDir (tryNo + j) := by
  intro j
  induction j with
  | zero =>
    intro r tryNo hr _ hfree
    cases r with
    | zero => omega
    | succ r' =>
      simp only [relPathProbe]
      rw [if_neg (by simpa using hfree)]
      simp
  | succ j ih =>
    intro r tryNo hr hall hfree
    cases r with
    | zero => omega
    | succ r' =>
      have h0 : fs.ExistsPath (full ++ [relPathCandidate pfx partDir (tryNo + 0)]) :=
        hall 0 (Nat.succ_pos j)
      have hr' : r' ≠ 0 := by omega
      simp only [relPathProbe]
      rw [if_pos (by simpa using h0), if_neg hr']
      have harith : tryNo + 1 + j = tryNo + (j + 1) := by omega
      rw [← harith] at hfree
      have hall' : ∀ k, k < j →
          fs.ExistsPath (full ++ [relPathCandidate pfx partDir (tryNo + 1 + k)]) := by
        intro k hk
        have := hall (k + 1) (by omega)
        have h2 : tryNo + (k + 1) = tryNo + 1 + k := by omega
        rwa [h2] at this
      have hrec := ih r' (tryNo + 1) (by omega) hall' hfree
      rw [hrec, harith]

/-- When every probed candidate exists, the loop returns the last one. -/
theorem relPathProbe_allExist (fs : FS) (full : Path) (pfx partDir : String) :
    ∀ (r tryNo : Nat), 0 < r →
      (∀ k, k < r → fs.ExistsPath (full ++ [relPathCandidate pfx partDir (tryNo + k)])) →
      relPathProbe fs full pfx partDir tryNo r
        = relPathCandidate pfx partDir (tryNo + (r - 1)) := by
  intro r
  induction r with
  | zero => omega
  | succ r' ih =>
    intro tryNo _ hall
    have h0 : fs.ExistsPath (full ++ [relPathCandidate pfx partDir (tryNo + 0)]) :=
      hall 0 (Nat.succ_pos r')
    simp only [relPathProbe]
    rw [if_pos (by simpa using h0)]
    by_cases hr' : r' = 0
    · subst hr'
      simp
    · rw [if_neg hr']
      have hall' : ∀ k, k < r' →
          fs.ExistsPath (full ++ [relPathCandidate pfx partDir (tryNo + 1 + k)]) := by
        intro k hk
        have := hall (k + 1) (by omega)
        have h2 : tryNo + (k + 1) = tryNo + 1 + k := by omega
        rwa [h2] at this
      rw [ih (tryNo + 1) (by omega) hall']
      congr 1
      omega

/-- Claim C6: `getRelativePathForPrefix` probes `prefix_partdir`,
`prefix_partdir_try1`, ... for at most 10 attempts and returns the first
candidate that does not exist at probe time; when all 10 candidates exist it
returns the last probed (possibly colliding) name. -/
theorem claim_C6 (st : DataPartStorageOnDisk) (fs : FS) (pfx : String) (detached : Bool) :
    (∀ j, j < 10 →
      (∀ k, k < j →
        fs.ExistsPath ((if detached then st.root_path ++ ["detached"] else st.root_path)
          ++ [relPathCandidate pfx st.part_dir k])) →
      ¬ fs.ExistsPath ((if detached then st.root_path ++ ["detached"] else st.root_path)
          ++ [relPathCandidate pfx st.part_dir j]) →
      st.getRelativePathForPrefix fs pfx detached = relPathCandidate pfx st.part_dir j)
    ∧ ((∀ k, k < 10 →
        fs.ExistsPath ((if detached then st.root_path ++ ["detached"] else st.root_path)
          ++ [relPathCandidate pfx st.part_dir k])) →
      st.getRelativePathForPrefix fs pfx detached = relPathCandidate pfx st.part_dir 9) := by
  constructor
  · intro j hj hall hfree
    have := relPathProbe_free fs
      (if detached then st.root_path ++ ["detached"] else st.root_path)
      pfx st.part_dir j 10 0 hj (by simpa using hall) (by simpa using hfree)
    simpa [DataPartStorageOnDisk.getRelativePathForPrefix] using this
  · intro hall
    have := relPathProbe_allExist fs
      (if detached then st.root_path ++ ["detached"] else st.root_path)
      pfx st.part_dir 10 0 (by omega) (by simpa using hall)
    simpa [DataPartStorageOnDisk.getRelativePathForPrefix] using this

/-- Witness for C6: with `pfx_part` taken and `pfx_part_try1` free, the
probing returns `pfx_part_try1`. -/
theorem claim_C6_witness :
    ((∀ k, k < 1 →
        (FS.mk [] [["data"], ["data", "pfx_part"]]).ExistsPath ((if false then
            (["data"] : Path) ++ ["detached"] else ["data"])
          ++ [relPathCandidate "pfx" "part" k]))
      ∧ ¬ (FS.mk [] [["data"], ["data", "pfx_part"]]).ExistsPath ((if false then
            (["data"] : Path) ++ ["detached"] else ["data"])
          ++ [relPathCandidate "pfx" "part" 1]))
    ∧ (DataPartStorageOnDisk.mk ["data"] "part").getRelativePathForPrefix
        (FS.mk [] [["data"], ["data", "pfx_part"]]) "pfx" false
      = relPathCandidate "pfx" "part" 1 :=
  ⟨⟨by decide, by decide⟩,
   (claim_C6 (DataPartStorageOnDisk.mk ["data"] "part")
      (FS.mk [] [["data"], ["data", "pfx_part"]]) "pfx" false).1 1 (by decide)
      (by decide) (by decide)⟩

/-! ## Claims C8 and C9: rename input validation -/

/-- Claim C8: for an existing part, `rename` to a relative path whose last
component is empty (a trailing-slash destination) fails with LogicalError and
performs no filesystem mutation: the returned state is unchanged, the
operation trace is empty (no move, no deletion, no timestamp update), and no
updated storage handle is produced, so `root_path`/`part_dir` stay as they
were. -/
theorem claim_C8 (st : DataPartStorageOnDisk) (fs : FS) (newRel : List String)
    (flag : Bool) (hsrc : fs.ExistsPath (st.root_path ++ [st.part_dir]))
    (hlast : newRel.getLast? = some "") :
    st.rename fs newRel flag = (fs, [], .error .logicalError) := by
  have hfn : pathHasFilename newRel = false := by
    unfold pathHasFilename
    rw [hlast]
    simp
  unfold DataPartStorageOnDisk.rename
  rw [if_neg (fun hc => hc hsrc), if_pos (by simp [hfn])]

/-- Witness for C8: renaming an existing part to `broken/` (trailing slash)
fails with LogicalError and changes nothing. -/
theorem claim_C8_witness :
    ((FS.mk [] [["data"], ["data", "all_1_1_0"]]).ExistsPath
        ((["data"] : Path) ++ ["all_1_1_0"])
      ∧ (["broken", ""] : List String).getLast? = some "")
    ∧ (DataPartStorageOnDisk.mk ["data"] "all_1_1_0").rename
        (FS.mk [] [["data"], ["data", "all_1_1_0"]]) ["broken", ""] false
      = (FS.mk [] [["data"], ["data", "all_1_1_0"]], [], .error .logicalError) :=
  ⟨⟨by decide, by decide⟩,
   claim_C8 (DataPartStorageOnDisk.mk ["data"] "all_1_1_0")
     (FS.mk [] [["data"], ["data", "all_1_1_0"]]) ["broken", ""] false
     (by decide) (by decide)⟩

/-- Claim C9: `rename` checks source existence before any other validation:
whenever the part directory does not exist it fails with FileDoesNotExist and
mutates nothing, for every destination — including a destination with an
empty last component (which would otherwise be a LogicalError) and a
destination that already exists (which would otherwise be
DirectoryAlreadyExists). -/
theorem claim_C9 (st : DataPartStorageOnDisk) (fs : FS) (newRel : List String)
    (flag : Bool) (hsrc : ¬ fs.ExistsPath (st.root_path ++ [st.part_dir])) :
    st.rename fs newRel flag = (fs, [], .error .fileDoesntExist) := by
  unfold DataPartStorageOnDisk.rename
  rw [if_pos hsrc]

/-- Witness for C9: the part directory is missing while the destination both
has an empty last component and exists on disk; the failure is still
FileDoesNotExist. -/
theorem claim_C9_witness :
    (¬ (FS.mk [] [["data"], ["data", "gone", ""]]).ExistsPath
        ((["data"] : Path) ++ ["gone"]))
    ∧ (DataPartStorageOnDisk.mk ["data"] "gone").rename
        (FS.mk [] [["data"], ["data", "gone", ""]]) ["gone", ""] true
      = (FS.mk [] [["data"], ["data", "gone", ""]], [], .error .fileDoesntExist) :=
  ⟨by decide,
   claim_C9 (DataPartStorageOnDisk.mk ["data"] "gone")
     (FS.mk [] [["data"], ["data", "gone", ""]]) ["gone", ""] true (by decide)⟩

/-! ## Lemmas about directory moves -/

theorem rebase_append (src dst t : Path) : rebase src dst (src ++ t) = dst ++ t := by
  unfold rebase
  rw [if_pos (List.isPrefixOf_iff_prefix.2 (List.prefix_append src t)), List.drop_left]

theorem rebase_of_not_prefixOf (src dst p : Path) (h : ¬ src <+: p) :
    rebase src dst p = p := by
  unfold rebase
  rw [if_neg (fun hb => h (List.isPrefixOf_iff_prefix.1 hb))]

theorem find?_map_snd (f : Path → Path) (p q : Path) :
    ∀ (l : List (Path × FileContent)),
      (∀ e ∈ l, (f e.1 == p) = (e.1 == q)) →
      ((l.map (fun e => (f e.1, e.2))).find? (fun e => e.1 == p)).map (fun e => e.2)
        = (l.find? (fun e => e.1 == q)).map (fun e => e.2) := by
  intro l
  induction l with
  | nil => intro _; rfl
  | cons a t ih =>
    intro hpt
    have ha := hpt a (List.mem_cons_self a t)
    have ih' := ih (fun e he => hpt e (List.mem_cons_of_mem a he))
    cases hq : (a.1 == q) with
    | true =>
      have h1 : (f a.1 == p) = true := ha.trans hq
      simp [List.find?_cons, h1, hq]
    | false =>
      have h1 : (f a.1 == p) = false := ha.trans hq
      simp only [List.map_cons, List.find?_cons, h1, hq]
      exact ih'

theorem FS.readFile?_moveDir_sub (fs : FS) (src dst rel : Path)
    (hno : ∀ e ∈ fs.files, ¬ InSubtree dst e.1) :
    (fs.moveDir src dst).readFile? (dst ++ rel) = fs.readFile? (src ++ rel) := by
  unfold FS.readFile? FS.moveDir
  apply find?_map_snd
  intro e he
  by_cases h : e.1 = src ++ rel
  · rw [h, rebase_append]
    simp
  · have h2 : (e.1 == src ++ rel) = false := by simp [h]
    rw [h2, beq_eq_false_iff_ne]
    intro hc
    by_cases hp : src <+: e.1
    · obtain ⟨t, ht⟩ := hp
      rw [← ht, rebase_append] at hc
      have ht2 := List.append_cancel_left hc
      exact h (by rw [← ht, ht2])
    · rw [rebase_of_not_prefixOf _ _ _ hp] at hc
      exact hno e he (by rw [hc]; exact List.prefix_append dst rel)

theorem FS.mem_dirs_moveDir_sub (fs : FS) (src dst rel : Path)
    (hno : ∀ q ∈ fs.dirs, ¬ InSubtree dst q) :
    (dst ++ rel) ∈ (fs.moveDir src dst).dirs ↔ (src ++ rel) ∈ fs.dirs := by
  unfold FS.moveDir
  simp only [List.mem_map]
  constructor
  · rintro ⟨q₀, hq₀, heq⟩
    by_cases hp : src <+: q₀
    · obtain ⟨t, ht⟩ := hp
      rw [← ht, rebase_append] at heq
      have ht2 := List.append_cancel_left heq
      subst ht2
      rw [ht]
      exact hq₀
    · rw [rebase_of_not_prefixOf _ _ _ hp] at heq
      exact absurd (by rw [heq]; exact List.prefix_append dst rel) (hno q₀ hq₀)
  · intro hmem
    exact ⟨src ++ rel, hmem, rebase_append src dst rel⟩

theorem FS.readFile?_moveDir_other (fs : FS) (src dst p : Path)
    (hs : ¬ InSubtree src p) (hd : ¬ InSubtree dst p) :
    (fs.moveDir src dst).readFile? p = fs.readFile? p := by
  unfold FS.readFile? FS.moveDir
  apply find?_map_snd
  intro e _
  by_cases h : e.1 = p
  · rw [h, rebase_of_not_prefixOf _ _ _ hs]
  · have h2 : (e.1 == p) = false := by simp [h]
    rw [h2, beq_eq_false_iff_ne]
    intro hc
    by_cases hp : src <+: e.1
    · obtain ⟨t, ht⟩ := hp
      rw [← ht, rebase_append] at hc
      exact hd (by rw [← hc]; exact List.prefix_append dst t)
    · rw [rebase_of_not_prefixOf _ _ _ hp] at hc
      exact h hc

theorem FS.mem_dirs_moveDir_other (fs : FS) (src dst p : Path)
    (hs : ¬ InSubtree src p) (hd : ¬ InSubtree dst p) :
    p ∈ (fs.moveDir src dst).dirs ↔ p ∈ fs.dirs := by
  unfold FS.moveDir
  simp only [List.mem_map]
  constructor
  · rintro ⟨q₀, hq₀, heq⟩
    by_cases hp : src <+: q₀
    · obtain ⟨t, ht⟩ := hp
      rw [← ht, rebase_append] at heq
      exact absurd (by rw [← heq]; exact List.prefix_append dst t) hd
    · rw [rebase_of_not_prefixOf _ _ _ hp] at heq
      rw [← heq]
      exact hq₀
  · intro hmem
    exact ⟨p, hmem, rebase_of_not_prefixOf _ _ _ hs⟩

theorem FS.not_existsPath_moveDir (fs : FS) (src dst p : Path)
    (hs : InSubtree src p) (hd : ¬ InSubtree dst p) :
    ¬ (fs.moveDir src dst).ExistsPath p := by
  have key : ∀ q₀, rebase src dst q₀ = p → False := by
    intro q₀ heq
    by_cases hp : src <+: q₀
    · obtain ⟨t, ht⟩ := hp
      rw [← ht, rebase_append] at heq
      exact hd (by rw [← heq]; exact List.prefix_append dst t)
    · rw [rebase_of_not_prefixOf _ _ _ hp] at heq
      rw [← heq] at hs
      exact hp hs
  rintro (hmem | hmem)
  · simp only [FS.fileNames, FS.moveDir, List.map_map, List.mem_map,
      Function.comp] at hmem
    obtain ⟨e, _, heq⟩ := hmem
    exact key e.1 heq
  · simp only [FS.moveDir, List.mem_map] at hmem
    obtain ⟨q₀, _, heq⟩ := hmem
    exact key q₀ heq

theorem not_inSubtree_append (src dst : Path) (hd1 : ¬ dst <+: src)
    (hd2 : ¬ src <+: dst) (rel : Path) : ¬ InSubtree dst (src ++ rel) := by
  intro h
  rcases Nat.le_total dst.length src.length with hle | hle
  · exact hd1 (List.prefix_of_prefix_length_le h (List.prefix_append src rel) hle)
  · exact hd2 (List.prefix_of_prefix_length_le (List.prefix_append src rel) h hle)

theorem FS.no_subtree_files_removeTree (fs : FS) (d : Path) :
    ∀ e ∈ (fs.removeTree d).files, ¬ InSubtree d e.1 := by
  intro e he
  have h2 := (List.mem_filter.1 he).2
  simpa using h2

theorem FS.no_subtree_dirs_removeTree (fs : FS) (d : Path) :
    ∀ q ∈ (fs.removeTree d).dirs, ¬ InSubtree d q := by
  intro q hq
  have h2 := (List.mem_filter.1 hq).2
  simpa using h2

/-! ## Claim C7: rename onto an existing destination -/

/-- Claim C7: when the rename destination already exists, the outcome is
decided by `remove_new_dir_if_exists`: without it, rename fails with
DirectoryAlreadyExists and nothing is touched (the source stays in place);
with it, the stale destination is recursively deleted first and the move then
proceeds — the source subtree is relocated to the destination (old
destination contents do not survive), the source path is gone, the location
fields are updated from the destination path, and paths outside both
subtrees are untouched. -/
theorem claim_C7 (st : DataPartStorageOnDisk) (fs : FS) (newRel : List String)
    (hsrc : fs.ExistsPath (st.root_path ++ [st.part_dir]))
    (hfn : pathHasFilename newRel = true)
    (hdst : fs.ExistsPath (st.root_path ++ newRel))
    (hd1 : ¬ InSubtree (st.root_path ++ newRel) (st.root_path ++ [st.part_dir]))
    (hd2 : ¬ InSubtree (st.root_path ++ [st.part_dir]) (st.root_path ++ newRel)) :
    (st.rename fs newRel false = (fs, [], .error .directoryAlreadyExists))
    ∧ (∃ fs',
        st.rename fs newRel true
          = (fs',
             [.removeRecursive (st.root_path ++ newRel),
              .setLastModified (st.root_path ++ [st.part_dir]),
              .moveDirectory (st.root_path ++ [st.part_dir]) (st.root_path ++ newRel)],
             .ok { root_path := (st.root_path ++ newRel).dropLast,
                   part_dir := (st.root_path ++ newRel).getLastD "" })
        ∧ (∀ rel, fs'.readFile? (st.root_path ++ newRel ++ rel)
            = fs.readFile? (st.root_path ++ [st.part_dir] ++ rel))
        ∧ (∀ rel, (st.root_path ++ newRel ++ rel) ∈ fs'.dirs
            ↔ (st.root_path ++ [st.part_dir] ++ rel) ∈ fs.dirs)
        ∧ ¬ fs'.ExistsPath (st.root_path ++ [st.part_dir])
        ∧ (∀ p, ¬ InSubtree (st.root_path ++ [st.part_dir]) p →
            ¬ InSubtree (st.root_path ++ newRel) p →
            fs'.readFile? p = fs.readFile? p ∧ (p ∈ fs'.dirs ↔ p ∈ fs.dirs))) := by
  constructor
  · unfold DataPartStorageOnDisk.rename
    rw [if_neg (fun hc => hc hsrc), if_neg (by simp [hfn]), if_pos hdst,
      if_neg Bool.false_ne_true]
  · refine ⟨(fs.removeTree (st.root_path ++ newRel)).moveDir
      (st.root_path ++ [st.part_dir]) (st.root_path ++ newRel), ?_, ?_, ?_, ?_, ?_⟩
    · unfold DataPartStorageOnDisk.rename
      rw [if_neg (fun hc => hc hsrc), if_neg (by simp [hfn]), if_pos hdst,
        if_pos rfl]
    · intro rel
      rw [FS.readFile?_moveDir_sub _ _ _ rel
        (FS.no_subtree_files_removeTree fs (st.root_path ++ newRel))]
      exact FS.readFile?_removeTree fs _ _
        (not_inSubtree_append (st.root_path ++ [st.part_dir])
          (st.root_path ++ newRel) hd1 hd2 rel)
    · intro rel
      rw [FS.mem_dirs_moveDir_sub _ _ _ rel
        (FS.no_subtree_dirs_removeTree fs (st.root_path ++ newRel))]
      rw [FS.mem_dirs_removeTree]
      constructor
      · rintro ⟨h, _⟩
        exact h
      · intro h
        exact ⟨h, not_inSubtree_append (st.root_path ++ [st.part_dir])
          (st.root_path ++ newRel) hd1 hd2 rel⟩
    · exact FS.not_existsPath_moveDir _ _ _ _ (List.prefix_refl _) hd1
    · intro p hps hpd
      constructor
      · rw [FS.readFile?_moveDir_other _ _ _ _ hps hpd,
          FS.readFile?_removeTree _ _ _ hpd]
      · rw [FS.mem_dirs_moveDir_other _ _ _ _ hps hpd, FS.mem_dirs_removeTree]
        simp [hpd]

/-- Witness for C7 at a part `data/tmp_part` renamed onto the already
existing `data/part`. -/
theorem claim_C7_witness :
    ((FS.mk [(["data", "tmp_part", "x.bin"], .str "x"),
             (["data", "part", "old.bin"], .str "old")]
        [["data"], ["data", "tmp_part"], ["data", "part"]]).ExistsPath
          ((["data"] : Path) ++ ["tmp_part"])
      ∧ pathHasFilename ["part"] = true
      ∧ (FS.mk [(["data", "tmp_part", "x.bin"], .str "x"),
             (["data", "part", "old.bin"], .str "old")]
        [["data"], ["data", "tmp_part"], ["data", "part"]]).ExistsPath
          ((["data"] : Path) ++ ["part"])
      ∧ ¬ InSubtree ((["data"] : Path) ++ ["part"]) ((["data"] : Path) ++ ["tmp_part"])
      ∧ ¬ InSubtree ((["data"] : Path) ++ ["tmp_part"]) ((["data"] : Path) ++ ["part"]))
    ∧ (((DataPartStorageOnDisk.mk ["data"] "tmp_part").rename
          (FS.mk [(["data", "tmp_part", "x.bin"], .str "x"),
             (["data", "part", "old.bin"], .str "old")]
            [["data"], ["data", "tmp_part"], ["data", "part"]]) ["part"] false
        = (FS.mk [(["data", "tmp_part", "x.bin"], .str "x"),
             (["data", "part", "old.bin"], .str "old")]
            [["data"], ["data", "tmp_part"], ["data", "part"]], [],
           .error .directoryAlreadyExists))
      ∧ (∃ fs',
          (DataPartStorageOnDisk.mk ["data"] "tmp_part").rename
            (FS.mk [(["data", "tmp_part", "x.bin"], .str "x"),
               (["data", "part", "old.bin"], .str "old")]
              [["data"], ["data", "tmp_part"], ["data", "part"]]) ["part"] true
            = (fs',
               [.removeRecursive ((["data"] : Path) ++ ["part"]),
                .setLastModified ((["data"] : Path) ++ ["tmp_part"]),
                .moveDirectory ((["data"] : Path) ++ ["tmp_part"])
                  ((["data"] : Path) ++ ["part"])],
               .ok { root_path := ((["data"] : Path) ++ ["part"]).dropLast,
                     part_dir := ((["data"] : Path) ++ ["part"]).getLastD "" })
          ∧ (∀ rel, fs'.readFile? ((["data"] : Path) ++ ["part"] ++ rel)
              = (FS.mk [(["data", "tmp_part", "x.bin"], .str "x"),
                   (["data", "part", "old.bin"], .str "old")]
                  [["data"], ["data", "tmp_part"], ["data", "part"]]).readFile?
                  ((["data"] : Path) ++ ["tmp_part"] ++ rel))
          ∧ (∀ rel, ((["data"] : Path) ++ ["part"] ++ rel) ∈ fs'.dirs
              ↔ ((["data"] : Path) ++ ["tmp_part"] ++ rel) ∈
                  (FS.mk [(["data", "tmp_part", "x.bin"], .str "x"),
                     (["data", "part", "old.bin"], .str "old")]
                    [["data"], ["data", "tmp_part"], ["data", "part"]]).dirs)
          ∧ ¬ fs'.ExistsPath ((["data"] : Path) ++ ["tmp_part"])
          ∧ (∀ p, ¬ InSubtree ((["data"] : Path) ++ ["tmp_part"]) p →
              ¬ InSubtree ((["data"] : Path) ++ ["part"]) p →
              fs'.readFile? p = (FS.mk [(["data", "tmp_part", "x.bin"], .str "x"),
                   (["data", "part", "old.bin"], .str "old")]
                  [["data"], ["data", "tmp_part"], ["data", "part"]]).readFile? p
              ∧ (p ∈ fs'.dirs ↔ p ∈
                  (FS.mk [(["data", "tmp_part", "x.bin"], .str "x"),
                     (["data", "part", "old.bin"], .str "old")]
                    [["data"], ["data", "tmp_part"], ["data", "part"]]).dirs)))) :=
  ⟨⟨by decide, by decide, by decide, by decide, by decide⟩,
   claim_C7 (DataPartStorageOnDisk.mk ["data"] "tmp_part")
     (FS.mk [(["data", "tmp_part", "x.bin"], .str "x"),
        (["data", "part", "old.bin"], .str "old")]
       [["data"], ["data", "tmp_part"], ["data", "part"]]) ["part"]
     (by decide) (by decide) (by decide) (by decide) (by decide)⟩

/-! ## Claim C4: empty manifest forces the recursive-removal path -/

theorem delete_tmp_ne (s : String) : s ≠ "delete_tmp_" ++ s := by
  intro h
  have h2 : s.length = ("delete_tmp_" ++ s).length := by rw [← h]
  rw [String.length_append] at h2
  have h3 : "delete_tmp_".length = 11 := by decide
  omega

theorem sibling_not_prefix (root : Path) (a b : String) (hne : a ≠ b) :
    ¬ (root ++ [a]) <+: (root ++ [b]) := by
  rintro ⟨t, ht⟩
  rw [List.append_assoc] at ht
  have h2 := List.append_cancel_left ht
  simp only [List.cons_append, List.nil_append] at h2
  exact hne (List.cons.inj h2).1

theorem FS.existsPath_removeTree_imp (fs : FS) (d p : Path) :
    (fs.removeTree d).ExistsPath p → fs.ExistsPath p ∧ ¬ InSubtree d p := by
  rintro (h | h)
  · have h2 := (FS.mem_fileNames_removeTree fs d p).1 h
    exact ⟨Or.inl h2.1, h2.2⟩
  · have h2 := (FS.mem_dirs_removeTree fs d p).1 h
    exact ⟨Or.inr h2.1, h2.2⟩

/-- `clearDirectory` with an empty manifest is exactly one recursive
removal. -/
theorem clearDirectory_empty (fs : FS) (dir : Path) (checksums : Checksums)
    (skip : List String) (isProj : Bool) (h : checksums.files = []) :
    clearDirectory fs dir checksums skip isProj
      = (fs.removeTree dir, [.removeSharedRecursive dir]) := by
  unfold clearDirectory
  rw [if_pos (by simp [Checksums.isEmpty, h])]

/-- Claim C4: with an empty checksum manifest, `remove()` still fully
deletes the part directory — after the two-phase move, nothing remains under
either the original part path or its `delete_tmp_` sibling, paths outside
both subtrees are untouched — and it does so through the
reference-count-aware recursive primitive (`removeSharedRecursive` appears
in the trace) with no targeted per-file batch (`removeSharedFiles` never
appears). -/
theorem claim_C4 (st : DataPartStorageOnDisk) (fs : FS) (checksums : Checksums)
    (hcks : checksums.files = [])
    (hsrc : fs.ExistsPath (st.root_path ++ [st.part_dir])) :
    ∃ fs' ops, st.remove fs checksums [] = (fs', ops)
      ∧ (∀ p, InSubtree (st.root_path ++ [st.part_dir]) p → ¬ fs'.ExistsPath p)
      ∧ (∀ p, InSubtree (st.root_path ++ ["delete_tmp_" ++ st.part_dir]) p →
          ¬ fs'.ExistsPath p)
      ∧ (∀ p, ¬ InSubtree (st.root_path ++ [st.part_dir]) p →
          ¬ InSubtree (st.root_path ++ ["delete_tmp_" ++ st.part_dir]) p →
          fs'.readFile? p = fs.readFile? p ∧ (p ∈ fs'.dirs ↔ p ∈ fs.dirs))
      ∧ DiskOp.removeSharedRecursive (st.root_path ++ ["delete_tmp_" ++ st.part_dir]) ∈ ops
      ∧ (∀ req, DiskOp.removeSharedFiles req ∉ ops) := by
  have hne : st.part_dir ≠ "delete_tmp_" ++ st.part_dir := delete_tmp_ne st.part_dir
  have hpf1 : ¬ (st.root_path ++ ["delete_tmp_" ++ st.part_dir])
      <+: (st.root_path ++ [st.part_dir]) :=
    sibling_not_prefix st.root_path _ _ (fun h => hne h.symm)
  have hpf2 : ¬ (st.root_path ++ [st.part_dir])
      <+: (st.root_path ++ ["delete_tmp_" ++ st.part_dir]) :=
    sibling_not_prefix st.root_path _ _ hne
  by_cases hstale : fs.ExistsPath (st.root_path ++ ["delete_tmp_" ++ st.part_dir])
  · refine ⟨((fs.removeTree (st.root_path ++ ["delete_tmp_" ++ st.part_dir])).moveDir
        (st.root_path ++ [st.part_dir])
        (st.root_path ++ ["delete_tmp_" ++ st.part_dir])).removeTree
        (st.root_path ++ ["delete_tmp_" ++ st.part_dir]),
      [DiskOp.removeSharedRecursive (st.root_path ++ ["delete_tmp_" ++ st.part_dir]),
       DiskOp.moveDirectory (st.root_path ++ [st.part_dir])
         (st.root_path ++ ["delete_tmp_" ++ st.part_dir]),
       DiskOp.removeSharedRecursive (st.root_path ++ ["delete_tmp_" ++ st.part_dir])],
      ?_, ?_, ?_, ?_, ?_, ?_⟩
    · have hsrc0 : (fs.removeTree
          (st.root_path ++ ["delete_tmp_" ++ st.part_dir])).ExistsPath
          (st.root_path ++ [st.part_dir]) := by
        rcases hsrc with h | h
        · exact Or.inl ((FS.mem_fileNames_removeTree _ _ _).2 ⟨h, hpf1⟩)
        · exact Or.inr ((FS.mem_dirs_removeTree _ _ _).2 ⟨h, hpf1⟩)
      unfold DataPartStorageOnDisk.remove
      rw [if_pos hstale]
      unfold DataPartStorageOnDisk.removeRest
      rw [if_neg (fun hc => hc hsrc0)]
      unfold DataPartStorageOnDisk.removeProjClear DataPartStorageOnDisk.clearTop
      rw [List.foldl_nil, List.map_nil, clearDirectory_empty _ _ _ _ _ hcks]
      rfl
    · intro p hp hex
      have h2 := FS.existsPath_removeTree_imp _ _ _ hex
      exact FS.not_existsPath_moveDir _ _ _ _ hp h2.2 h2.1
    · intro p hp hex
      exact (FS.existsPath_removeTree_imp _ _ _ hex).2 hp
    · intro p hps hpd
      constructor
      · rw [FS.readFile?_removeTree _ _ _ hpd,
          FS.readFile?_moveDir_other _ _ _ _ hps hpd,
          FS.readFile?_removeTree _ _ _ hpd]
      · rw [FS.mem_dirs_removeTree, FS.mem_dirs_moveDir_other _ _ _ _ hps hpd,
          FS.mem_dirs_removeTree]
        constructor
        · rintro ⟨⟨h, _⟩, _⟩
          exact h
        · intro h
          exact ⟨⟨h, hpd⟩, hpd⟩
    · simp
    · intro req
      simp
  · refine ⟨((fs.moveDir (st.root_path ++ [st.part_dir])
        (st.root_path ++ ["delete_tmp_" ++ st.part_dir])).removeTree
        (st.root_path ++ ["delete_tmp_" ++ st.part_dir])),
      [DiskOp.moveDirectory (st.root_path ++ [st.part_dir])
         (st.root_path ++ ["delete_tmp_" ++ st.part_dir]),
       DiskOp.removeSharedRecursive (st.root_path ++ ["delete_tmp_" ++ st.part_dir])],
      ?_, ?_, ?_, ?_, ?_, ?_⟩
    · unfold DataPartStorageOnDisk.remove
      rw [if_neg hstale]
      unfold DataPartStorageOnDisk.removeRest
      rw [if_neg (fun hc => hc hsrc)]
      unfold DataPartStorageOnDisk.removeProjClear DataPartStorageOnDisk.clearTop
      rw [List.foldl_nil, List.map_nil, clearDirectory_empty _ _ _ _ _ hcks]
      rfl
    · intro p hp hex
      have h2 := FS.existsPath_removeTree_imp _ _ _ hex
      exact FS.not_existsPath_moveDir _ _ _ _ hp h2.2 h2.1
    · intro p hp hex
      exact (FS.existsPath_removeTree_imp _ _ _ hex).2 hp
    · intro p hps hpd
      constructor
      · rw [FS.readFile?_removeTree _ _ _ hpd,
          FS.readFile?_moveDir_other _ _ _ _ hps hpd]
      · rw [FS.mem_dirs_removeTree, FS.mem_dirs_moveDir_other _ _ _ _ hps hpd]
        constructor
        · rintro ⟨h, _⟩
          exact h
        · intro h
          exact ⟨h, hpd⟩
    · simp
    · intro req
      simp

/-- Witness for C4 at a concrete mid-construction part (one data file, empty
manifest). -/
theorem claim_C4_witness :
    ((Checksums.mk []).files = []
      ∧ (FS.mk [(["data", "part", "x.bin"], .str "x")]
          [["data"], ["data", "part"]]).ExistsPath ((["data"] : Path) ++ ["part"]))
    ∧ (∃ fs' ops,
        (DataPartStorageOnDisk.mk ["data"] "part").remove
          (FS.mk [(["data", "part", "x.bin"], .str "x")] [["data"], ["data", "part"]])
          (Checksums.mk []) [] = (fs', ops)
        ∧ (∀ p, InSubtree ((["data"] : Path) ++ ["part"]) p → ¬ fs'.ExistsPath p)
        ∧ (∀ p, InSubtree ((["data"] : Path) ++ ["delete_tmp_" ++ "part"]) p →
            ¬ fs'.ExistsPath p)
        ∧ (∀ p, ¬ InSubtree ((["data"] : Path) ++ ["part"]) p →
            ¬ InSubtree ((["data"] : Path) ++ ["delete_tmp_" ++ "part"]) p →
            fs'.readFile? p
              = (FS.mk [(["data", "part", "x.bin"], .str "x")]
                  [["data"], ["data", "part"]]).readFile? p
            ∧ (p ∈ fs'.dirs ↔ p ∈
                (FS.mk [(["data", "part", "x.bin"], .str "x")]
                  [["data"], ["data", "part"]]).dirs))
        ∧ DiskOp.removeSharedRecursive ((["data"] : Path) ++ ["delete_tmp_" ++ "part"]) ∈ ops
        ∧ (∀ req, DiskOp.removeSharedFiles req ∉ ops)) :=
  ⟨⟨rfl, by decide⟩,
   claim_C4 (DataPartStorageOnDisk.mk ["data"] "part")
     (FS.mk [(["data", "part", "x.bin"], .str "x")] [["data"], ["data", "part"]])
     (Checksums.mk []) rfl (by decide)⟩

/-! ## Claim C1: targeted fast-path deletion in clearDirectory -/

/-- The state a batch removal ends in, whether or not it succeeded (the
files already removed before a failure stay removed). -/
def batchState : Except FS FS → FS
  | .ok fs => fs
  | .error fs => fs

theorem removeBatch_dirs : ∀ (req : List (Path × Bool)) (fs : FS),
    (batchState (removeBatch fs req)).dirs = fs.dirs := by
  intro req
  induction req with
  | nil => intro fs; rfl
  | cons pb rest ih =>
    obtain ⟨q, ie⟩ := pb
    intro fs
    simp only [removeBatch]
    by_cases hq : fs.IsFile q
    · rw [if_pos hq, ih (fs.eraseFile q)]
      rfl
    · rw [if_neg hq]
      cases ie with
      | true =>
        rw [if_pos rfl]
        exact ih fs
      | false =>
        rfl

theorem removeBatch_readFile?_untouched :
    ∀ (req : List (Path × Bool)) (fs : FS) (p : Path),
      p ∉ req.map Prod.fst →
      (batchState (removeBatch fs req)).readFile? p = fs.readFile? p := by
  intro req
  induction req with
  | nil => intro fs p _; rfl
  | cons pb rest ih =>
    obtain ⟨q, ie⟩ := pb
    intro fs p hp
    simp only [List.map_cons, List.mem_cons, not_or] at hp
    simp only [removeBatch]
    by_cases hq : fs.IsFile q
    · rw [if_pos hq, ih (fs.eraseFile q) p hp.2,
        FS.readFile?_eraseFile, if_neg hp.1]
    · rw [if_neg hq]
      cases ie with
      | true =>
        rw [if_pos rfl]
        exact ih fs p hp.2
      | false =>
        rfl

theorem removeBatch_success :
    ∀ (req : List (Path × Bool)) (fs : FS),
      (req.map Prod.fst).Nodup →
      (∀ pb ∈ req, pb.2 = false → pb.1 ∈ fs.fileNames) →
      removeBatch fs req
        = .ok { files := fs.files.filter (fun e => decide (e.1 ∉ req.map Prod.fst)),
                dirs := fs.dirs } := by
  intro req
  induction req with
  | nil =>
    intro fs _ _
    simp only [removeBatch, List.map_nil]
    have hfe : fs.files.filter (fun e => decide (e.1 ∉ ([] : List Path))) = fs.files :=
      List.filter_eq_self.2 (by simp)
    rw [hfe]
  | cons pb rest ih =>
    obtain ⟨q, ie⟩ := pb
    intro fs hnd hpres
    simp only [List.map_cons] at hnd ⊢
    have hqnot : q ∉ rest.map Prod.fst := (List.nodup_cons.1 hnd).1
    have hndr : (rest.map Prod.fst).Nodup := (List.nodup_cons.1 hnd).2
    simp only [removeBatch]
    by_cases hq : fs.IsFile q
    · rw [if_pos hq]
      have hpres' : ∀ pb ∈ rest, pb.2 = false → pb.1 ∈ (fs.eraseFile q).fileNames := by
        intro pb hm hfalse
        rw [FS.mem_fileNames_eraseFile]
        refine ⟨hpres pb (List.mem_cons_of_mem _ hm) hfalse, ?_⟩
        intro heq
        exact hqnot (heq ▸ (List.mem_map.2 ⟨pb, hm, rfl⟩))
      rw [ih (fs.eraseFile q) hndr hpres']
      congr 2
      unfold FS.eraseFile
      rw [List.filter_filter]
      apply List.filter_congr
      intro e _
      by_cases h1 : e.1 = q <;> by_cases h2 : e.1 ∈ rest.map Prod.fst <;>
        simp [h1, h2]
    · cases ie with
      | false =>
        exact absurd (hpres (q, false) (List.mem_cons_self _ _) rfl) hq
      | true =>
        rw [if_neg hq, if_pos rfl]
        rw [ih fs hndr (fun pb hm hf => hpres pb (List.mem_cons_of_mem _ hm) hf)]
        congr 2
        apply List.filter_congr
        intro e he
        have hne : e.1 ≠ q := by
          intro heq
          exact hq (heq ▸ (List.mem_map.2 ⟨e, he, rfl⟩))
        simp [hne]

theorem removeDirectory?_eq_some {fs : FS} {d : Path} {fs' : FS}
    (h : fs.removeDirectory? d = some fs') :
    d ∈ fs.dirs ∧ (∀ e ∈ fs.files, ¬ InSubtree d e.1)
    ∧ (∀ q ∈ fs.dirs, InSubtree d q → q = d)
    ∧ fs' = { fs with dirs := fs.dirs.filter (fun q => decide (q ≠ d)) } := by
  unfold FS.removeDirectory? at h
  by_cases hc : d ∈ fs.dirs
      ∧ (∀ e ∈ fs.files, ¬ InSubtree d e.1)
      ∧ (∀ q ∈ fs.dirs, InSubtree d q → q = d)
  · rw [if_pos hc] at h
    exact ⟨hc.1, hc.2.1, hc.2.2, (Option.some.inj h).symm⟩
  · rw [if_neg hc] at h
    cases h

/-- All request paths lie inside the cleared directory. -/
theorem clearRequest_names_subtree (dir : Path) (cks : Checksums)
    (skip : List String) (isProj : Bool) :
    ∀ p ∈ (clearRequest dir cks skip isProj).map Prod.fst, InSubtree dir p := by
  intro p hp
  obtain ⟨pb, hpb, rfl⟩ := List.mem_map.1 hp
  unfold clearRequest at hpb
  rcases List.mem_append.1 hpb with hm | hm
  · rcases List.mem_append.1 hm with hm | hm
    · obtain ⟨f, _, rfl⟩ := List.mem_map.1 hm
      exact List.prefix_append dir [f]
    · simp only [List.mem_cons, List.not_mem_nil, or_false] at hm
      rcases hm with rfl | rfl | rfl | rfl
      all_goals exact List.prefix_append dir _
  · cases isProj with
    | true => simp at hm
    | false =>
      have hm2 : pb = (dir ++ ["txn_version.txt"], true) := by simpa using hm
      rw [hm2]
      exact List.prefix_append dir _

/-- Membership in the request's path list, phrased as the claim enumerates
it. -/
theorem mem_clearRequest_names (dir : Path) (cks : Checksums) (skip : List String)
    (isProj : Bool) (p : Path) :
    p ∈ (clearRequest dir cks skip isProj).map Prod.fst
      ↔ ((∃ f ∈ cks.files.map Prod.fst, f ∉ skip ∧ p = dir ++ [f])
        ∨ p = dir ++ ["checksums.txt"] ∨ p = dir ++ ["columns.txt"]
        ∨ p = dir ++ ["default_compression_codec.txt"]
        ∨ p = dir ++ ["delete-on-destroy.txt"]
        ∨ (isProj = false ∧ p = dir ++ ["txn_version.txt"])) := by
  unfold clearRequest
  constructor
  · intro h
    rcases List.mem_map.1 h with ⟨pb, hpb, rfl⟩
    rcases List.mem_append.1 hpb with hm | hm
    · rcases List.mem_append.1 hm with hm | hm
      · rcases List.mem_map.1 hm with ⟨f, hf, rfl⟩
        have hf2 := List.mem_filter.1 hf
        exact Or.inl ⟨f, hf2.1, by simpa using hf2.2, rfl⟩
      · simp only [List.mem_cons, List.not_mem_nil, or_false] at hm
        rcases hm with rfl | rfl | rfl | rfl
        · exact Or.inr (Or.inl rfl)
        · exact Or.inr (Or.inr (Or.inl rfl))
        · exact Or.inr (Or.inr (Or.inr (Or.inl rfl)))
        · exact Or.inr (Or.inr (Or.inr (Or.inr (Or.inl rfl))))
    · cases isProj with
      | true => simp at hm
      | false =>
        have hm2 : pb = (dir ++ ["txn_version.txt"], true) := by simpa using hm
        rw [hm2]
        exact Or.inr (Or.inr (Or.inr (Or.inr (Or.inr ⟨rfl, rfl⟩))))
  · intro h
    apply List.mem_map.2
    rcases h with ⟨f, hf, hnin, rfl⟩ | rfl | rfl | rfl | rfl | ⟨hproj, rfl⟩
    · exact ⟨(dir ++ [f], false),
        List.mem_append.2 (Or.inl (List.mem_append.2 (Or.inl
          (List.mem_map.2 ⟨f, List.mem_filter.2 ⟨hf, by simpa using hnin⟩, rfl⟩)))),
        rfl⟩
    · exact ⟨(dir ++ ["checksums.txt"], false),
        List.mem_append.2 (Or.inl (List.mem_append.2 (Or.inr (by simp)))), rfl⟩
    · exact ⟨(dir ++ ["columns.txt"], false),
        List.mem_append.2 (Or.inl (List.mem_append.2 (Or.inr (by simp)))), rfl⟩
    · exact ⟨(dir ++ ["default_compression_codec.txt"], true),
        List.mem_append.2 (Or.inl (List.mem_append.2 (Or.inr (by simp)))), rfl⟩
    · exact ⟨(dir ++ ["delete-on-destroy.txt"], true),
        List.mem_append.2 (Or.inl (List.mem_append.2 (Or.inr (by simp)))), rfl⟩
    · subst hproj
      exact ⟨(dir ++ ["txn_version.txt"], true),
        List.mem_append.2 (Or.inr (by simp)), rfl⟩

/-- The fast path of `clearDirectory` succeeds exactly when the whole batch
removes and the directory is then empty, producing the filtered state and
the targeted two-operation trace. -/
theorem clearDirectory_success (fs : FS) (dir : Path) (cks : Checksums)
    (skip : List String) (isProj : Bool)
    (h1 : cks.files ≠ [])
    (hnodup : ((clearRequest dir cks skip isProj).map Prod.fst).Nodup)
    (hpres : ∀ pb ∈ clearRequest dir cks skip isProj, pb.2 = false →
      pb.1 ∈ fs.fileNames)
    (hdir : dir ∈ fs.dirs)
    (hef : ∀ p ∈ fs.fileNames, InSubtree dir p →
      p ∈ (clearRequest dir cks skip isProj).map Prod.fst)
    (hed : ∀ q ∈ fs.dirs, InSubtree dir q → q = dir) :
    clearDirectory fs dir cks skip isProj
      = ({ files := fs.files.filter (fun e =>
              decide (e.1 ∉ (clearRequest dir cks skip isProj).map Prod.fst)),
           dirs := fs.dirs.filter (fun q => decide (q ≠ dir)) },
         [.removeSharedFiles (clearRequest dir cks skip isProj),
          .removeDirectory dir]) := by
  have hne : ¬ (cks.isEmpty = true) := by
    simp only [Checksums.isEmpty, List.isEmpty_iff]
    exact h1
  have hrd : (FS.mk (fs.files.filter (fun e =>
          decide (e.1 ∉ (clearRequest dir cks skip isProj).map Prod.fst)))
        fs.dirs).removeDirectory? dir
      = some (FS.mk (fs.files.filter (fun e =>
            decide (e.1 ∉ (clearRequest dir cks skip isProj).map Prod.fst)))
          (fs.dirs.filter (fun q => decide (q ≠ dir)))) := by
    unfold FS.removeDirectory?
    rw [if_pos]
    constructor
    · exact hdir
    constructor
    · intro e he hsub
      have he2 := List.mem_filter.1 he
      have he3 : e.1 ∈ fs.fileNames := List.mem_map.2 ⟨e, he2.1, rfl⟩
      have he4 := hef e.1 he3 hsub
      have he5 := he2.2
      simp only [decide_eq_true_eq] at he5
      exact he5 he4
    · exact hed
  unfold clearDirectory
  rw [if_neg hne,
    removeBatch_success (clearRequest dir cks skip isProj) fs hnodup hpres]
  dsimp only
  rw [hrd]

/-- Claim C1: for a non-empty checksum manifest, the directory-clearing step
of `remove()` (applied to the moved `delete_tmp_` directory) deletes exactly
the manifest's enumerated files (skipping names recorded as projection
directories), `checksums.txt` and `columns.txt` unconditionally, and
`default_compression_codec.txt`, `delete-on-destroy.txt` and — outside
projection directories — `txn_version.txt` tolerating their absence, then
removes the now-empty directory; its trace is exactly one batched file
removal followed by one directory removal, with no recursive scan.
Moreover, on any filesystem state (second conjunct) the cleared directory's
subtree is fully removed and everything outside it is untouched, and the
trace is either exactly the targeted one or contains the recursive-removal
fallback. -/
theorem claim_C1 (fs : FS) (dir : Path) (cks : Checksums) (skip : List String)
    (isProj : Bool)
    (h1 : cks.files ≠ [])
    (hnodup : ((clearRequest dir cks skip isProj).map Prod.fst).Nodup)
    (hman : ∀ f ∈ cks.files.map Prod.fst, f ∉ skip → (dir ++ [f]) ∈ fs.fileNames)
    (hcc : (dir ++ ["checksums.txt"]) ∈ fs.fileNames)
    (hcol : (dir ++ ["columns.txt"]) ∈ fs.fileNames)
    (hdir : dir ∈ fs.dirs)
    (hef : ∀ p ∈ fs.fileNames, InSubtree dir p →
      p ∈ (clearRequest dir cks skip isProj).map Prod.fst)
    (hed : ∀ q ∈ fs.dirs, InSubtree dir q → q = dir) :
    ((clearDirectory fs dir cks skip isProj).2
        = [.removeSharedFiles (clearRequest dir cks skip isProj),
           .removeDirectory dir]
      ∧ (∀ p, p ∈ (clearDirectory fs dir cks skip isProj).1.fileNames
          ↔ p ∈ fs.fileNames
            ∧ ¬ ((∃ f ∈ cks.files.map Prod.fst, f ∉ skip ∧ p = dir ++ [f])
              ∨ p = dir ++ ["checksums.txt"] ∨ p = dir ++ ["columns.txt"]
              ∨ p = dir ++ ["default_compression_codec.txt"]
              ∨ p = dir ++ ["delete-on-destroy.txt"]
              ∨ (isProj = false ∧ p = dir ++ ["txn_version.txt"])))
      ∧ (∀ q, q ∈ (clearDirectory fs dir cks skip isProj).1.dirs
          ↔ q ∈ fs.dirs ∧ q ≠ dir))
    ∧ (∀ fs₂,
        (∀ p, InSubtree dir p →
          ¬ (clearDirectory fs₂ dir cks skip isProj).1.ExistsPath p)
        ∧ (∀ p, ¬ InSubtree dir p →
            (clearDirectory fs₂ dir cks skip isProj).1.readFile? p = fs₂.readFile? p
            ∧ (p ∈ (clearDirectory fs₂ dir cks skip isProj).1.dirs ↔ p ∈ fs₂.dirs))
        ∧ ((clearDirectory fs₂ dir cks skip isProj).2
              = [.removeSharedFiles (clearRequest dir cks skip isProj),
                 .removeDirectory dir]
            ∨ .removeSharedRecursive dir ∈ (clearDirectory fs₂ dir cks skip isProj).2)) := by
  have hpres : ∀ pb ∈ clearRequest dir cks skip isProj, pb.2 = false →
      pb.1 ∈ fs.fileNames := by
    intro pb hm hflag
    unfold clearRequest at hm
    rcases List.mem_append.1 hm with hm | hm
    · rcases List.mem_append.1 hm with hm | hm
      · rcases List.mem_map.1 hm with ⟨f, hf, rfl⟩
        have hf2 := List.mem_filter.1 hf
        exact hman f hf2.1 (by simpa using hf2.2)
      · simp only [List.mem_cons, List.not_mem_nil, or_false] at hm
        rcases hm with rfl | rfl | rfl | rfl
        · exact hcc
        · exact hcol
        · cases hflag
        · cases hflag
    · cases isProj with
      | true => simp at hm
      | false =>
        have hm2 : pb = (dir ++ ["txn_version.txt"], true) := by simpa using hm
        rw [hm2] at hflag
        cases hflag
  have hsucc := clearDirectory_success fs dir cks skip isProj h1 hnodup hpres
    hdir hef hed
  refine ⟨⟨?_, ?_, ?_⟩, ?_⟩
  · rw [hsucc]
  · intro p
    rw [hsucc]
    constructor
    · intro hmem
      obtain ⟨e, he, rfl⟩ := List.mem_map.1 hmem
      have he2 := List.mem_filter.1 he
      have hnin := he2.2
      simp only [decide_eq_true_eq] at hnin
      exact ⟨List.mem_map.2 ⟨e, he2.1, rfl⟩,
        fun hcl => hnin ((mem_clearRequest_names dir cks skip isProj e.1).2 hcl)⟩
    · rintro ⟨hmem, hncl⟩
      obtain ⟨e, he, rfl⟩ := List.mem_map.1 hmem
      apply List.mem_map.2
      refine ⟨e, List.mem_filter.2 ⟨he, ?_⟩, rfl⟩
      simp only [decide_eq_true_eq]
      exact fun hin => hncl ((mem_clearRequest_names dir cks skip isProj e.1).1 hin)
  · intro q
    rw [hsucc]
    simp [List.mem_filter]
  · intro fs₂
    have hne : ¬ (cks.isEmpty = true) := by
      simp only [Checksums.isEmpty, List.isEmpty_iff]
      exact h1
    rcases hbatch : removeBatch fs₂ (clearRequest dir cks skip isProj) with fsP | fs1
    · -- batch failure: partial state, then recursive fallback
      have heq : clearDirectory fs₂ dir cks skip isProj
          = (fsP.removeTree dir,
             [.removeSharedFiles (clearRequest dir cks skip isProj),
              .removeSharedRecursive dir]) := by
        unfold clearDirectory
        rw [if_neg hne, hbatch]
      have hstate : fsP = batchState (removeBatch fs₂ (clearRequest dir cks skip isProj)) := by
        rw [hbatch]
        rfl
      refine ⟨?_, ?_, ?_⟩
      · intro p hp hex
        rw [heq] at hex
        exact (FS.existsPath_removeTree_imp _ _ _ hex).2 hp
      · intro p hp
        have hnin : p ∉ (clearRequest dir cks skip isProj).map Prod.fst :=
          fun hin => hp (clearRequest_names_subtree dir cks skip isProj p hin)
        constructor
        · rw [heq]
          dsimp only
          rw [FS.readFile?_removeTree _ _ _ hp, hstate,
            removeBatch_readFile?_untouched _ _ _ hnin]
        · rw [heq]
          dsimp only
          rw [FS.mem_dirs_removeTree, hstate, removeBatch_dirs]
          simp [hp]
      · rw [heq]
        simp
    · rcases hrd : fs1.removeDirectory? dir with _ | fs2
      · -- directory removal failure: recursive fallback from the ok state
        have heq : clearDirectory fs₂ dir cks skip isProj
            = (fs1.removeTree dir,
               [.removeSharedFiles (clearRequest dir cks skip isProj),
                .removeDirectory dir, .removeSharedRecursive dir]) := by
          unfold clearDirectory
          rw [if_neg hne, hbatch]
          dsimp only
          rw [hrd]
        have hstate : fs1 = batchState (removeBatch fs₂ (clearRequest dir cks skip isProj)) := by
          rw [hbatch]
          rfl
        refine ⟨?_, ?_, ?_⟩
        · intro p hp hex
          rw [heq] at hex
          exact (FS.existsPath_removeTree_imp _ _ _ hex).2 hp
        · intro p hp
          have hnin : p ∉ (clearRequest dir cks skip isProj).map Prod.fst :=
            fun hin => hp (clearRequest_names_subtree dir cks skip isProj p hin)
          constructor
          · rw [heq]
            dsimp only
            rw [FS.readFile?_removeTree _ _ _ hp, hstate,
              removeBatch_readFile?_untouched _ _ _ hnin]
          · rw [heq]
            dsimp only
            rw [FS.mem_dirs_removeTree, hstate, removeBatch_dirs]
            simp [hp]
        · rw [heq]
          simp
      · -- full fast-path success on fs₂
        have heq : clearDirectory fs₂ dir cks skip isProj
            = (fs2, [.removeSharedFiles (clearRequest dir cks skip isProj),
                     .removeDirectory dir]) := by
          unfold clearDirectory
          rw [if_neg hne, hbatch]
          dsimp only
          rw [hrd]
        obtain ⟨hd1, hd2, hd3, hd4⟩ := removeDirectory?_eq_some hrd
        have hstate : fs1 = batchState (removeBatch fs₂ (clearRequest dir cks skip isProj)) := by
          rw [hbatch]
          rfl
        refine ⟨?_, ?_, ?_⟩
        · intro p hp hex
          rw [heq] at hex
          rcases hex with hex | hex
          · rcases List.mem_map.1 (by rw [hd4] at hex; exact hex) with ⟨e, he, rfl⟩
            exact hd2 e he hp
          · rw [hd4] at hex
            have hex2 := List.mem_filter.1 hex
            have := hd3 p hex2.1 hp
            have hne2 := hex2.2
            simp only [decide_eq_true_eq] at hne2
            exact hne2 this
        · intro p hp
          have hnin : p ∉ (clearRequest dir cks skip isProj).map Prod.fst :=
            fun hin => hp (clearRequest_names_subtree dir cks skip isProj p hin)
          constructor
          · rw [heq]
            dsimp only
            rw [hd4]
            have : ({ fs1 with dirs := fs1.dirs.filter (fun q => decide (q ≠ dir)) } : FS).readFile? p
                = fs1.readFile? p := rfl
            rw [this, hstate, removeBatch_readFile?_untouched _ _ _ hnin]
          · rw [heq]
            dsimp only
            rw [hd4]
            have hpd : p ≠ dir := fun h => hp (h ▸ List.prefix_refl dir)
            constructor
            · intro hmem
              have h2 := List.mem_filter.1 hmem
              rw [hstate, removeBatch_dirs] at h2
              exact h2.1
            · intro hmem
              apply List.mem_filter.2
              rw [hstate, removeBatch_dirs]
              exact ⟨hmem, by simpa using hpd⟩
        · rw [heq]
          simp

/-- Concrete cleared directory for the C1 witness (the spec's example
scenario): `delete_tmp_all_1_1_0` holding `data.bin`, `data.mrk`,
`checksums.txt`, `columns.txt` and `delete-on-destroy.txt`. -/
def c1dir : Path := ["store", "delete_tmp_all_1_1_0"]

/-- Concrete manifest for the C1 witness:
`data.bin ↦ (size 100, hash 1)`, `data.mrk ↦ (size 8, hash 2)`. -/
def c1cks : Checksums :=
  Checksums.mk [("data.bin", ChecksumEntry.mk 100 1), ("data.mrk", ChecksumEntry.mk 8 2)]

/-- Concrete filesystem for the C1 witness. -/
def c1fs : FS :=
  FS.mk
    [(["store", "delete_tmp_all_1_1_0", "data.bin"], .str "d"),
     (["store", "delete_tmp_all_1_1_0", "data.mrk"], .str "m"),
     (["store", "delete_tmp_all_1_1_0", "checksums.txt"], .str "c"),
     (["store", "delete_tmp_all_1_1_0", "columns.txt"], .str "s"),
     (["store", "delete_tmp_all_1_1_0", "delete-on-destroy.txt"], .str "")]
    [["store"], ["store", "delete_tmp_all_1_1_0"]]

/-- Witness for C1 at the spec's example scenario. -/
theorem claim_C1_witness :
    (c1cks.files ≠ []
      ∧ ((clearRequest c1dir c1cks [] false).map Prod.fst).Nodup
      ∧ (∀ f ∈ c1cks.files.map Prod.fst, f ∉ ([] : List String) →
          (c1dir ++ [f]) ∈ c1fs.fileNames)
      ∧ (c1dir ++ ["checksums.txt"]) ∈ c1fs.fileNames
      ∧ (c1dir ++ ["columns.txt"]) ∈ c1fs.fileNames
      ∧ c1dir ∈ c1fs.dirs
      ∧ (∀ p ∈ c1fs.fileNames, InSubtree c1dir p →
          p ∈ (clearRequest c1dir c1cks [] false).map Prod.fst)
      ∧ (∀ q ∈ c1fs.dirs, InSubtree c1dir q → q = c1dir))
    ∧ (((clearDirectory c1fs c1dir c1cks [] false).2
          = [.removeSharedFiles (clearRequest c1dir c1cks [] false),
             .removeDirectory c1dir]
        ∧ (∀ p, p ∈ (clearDirectory c1fs c1dir c1cks [] false).1.fileNames
            ↔ p ∈ c1fs.fileNames
              ∧ ¬ ((∃ f ∈ c1cks.files.map Prod.fst, f ∉ ([] : List String)
                    ∧ p = c1dir ++ [f])
                ∨ p = c1dir ++ ["checksums.txt"] ∨ p = c1dir ++ ["columns.txt"]
                ∨ p = c1dir ++ ["default_compression_codec.txt"]
                ∨ p = c1dir ++ ["delete-on-destroy.txt"]
                ∨ (false = false ∧ p = c1dir ++ ["txn_version.txt"])))
        ∧ (∀ q, q ∈ (clearDirectory c1fs c1dir c1cks [] false).1.dirs
            ↔ q ∈ c1fs.dirs ∧ q ≠ c1dir))
      ∧ (∀ fs₂,
          (∀ p, InSubtree c1dir p →
            ¬ (clearDirectory fs₂ c1dir c1cks [] false).1.ExistsPath p)
          ∧ (∀ p, ¬ InSubtree c1dir p →
              (clearDirectory fs₂ c1dir c1cks [] false).1.readFile? p
                = fs₂.readFile? p
              ∧ (p ∈ (clearDirectory fs₂ c1dir c1cks [] false).1.dirs
                  ↔ p ∈ fs₂.dirs))
          ∧ ((clearDirectory fs₂ c1dir c1cks [] false).2
                = [.removeSharedFiles (clearRequest c1dir c1cks [] false),
                   .removeDirectory c1dir]
              ∨ .removeSharedRecursive c1dir
                  ∈ (clearDirectory fs₂ c1dir c1cks [] false).2))) :=
  ⟨⟨by decide, by decide, by decide, by decide, by decide, by decide, by decide,
    by decide⟩,
   claim_C1 c1fs c1dir c1cks [] false (by decide) (by decide) (by decide)
     (by decide) (by decide) (by decide) (by decide) (by decide)⟩

/-! ## Claim C5: clone -/

theorem FS.files_mkdir (fs : FS) (p : Path) : (fs.mkdir p).files = fs.files := by
  unfold FS.mkdir
  split <;> rfl

theorem FS.fileNames_mkdir (fs : FS) (p : Path) :
    (fs.mkdir p).fileNames = fs.fileNames := by
  unfold FS.fileNames
  rw [FS.files_mkdir]

theorem FS.mem_fileNames_copyDir (fs : FS) (src dst p : Path) :
    p ∈ (fs.copyDir src dst).fileNames
      ↔ p ∈ fs.fileNames ∨ (∃ rel, p = dst ++ rel ∧ (src ++ rel) ∈ fs.fileNames) := by
  unfold FS.copyDir FS.fileNames
  simp only [List.map_append, List.mem_append, List.mem_map, List.mem_filterMap]
  constructor
  · rintro (⟨e, he, rfl⟩ | ⟨b, ⟨e, he, hg⟩, rfl⟩)
    · exact Or.inl ⟨e, he, rfl⟩
    · by_cases hp : src.isPrefixOf e.1
      · rw [if_pos hp] at hg
        rcases Option.some.inj hg with rfl
        obtain ⟨t, ht⟩ := List.isPrefixOf_iff_prefix.1 hp
        refine Or.inr ⟨t, ?_, ?_⟩
        · show dst ++ e.1.drop src.length = dst ++ t
          rw [← ht, List.drop_left]
        · rw [ht]
          exact ⟨e, he, rfl⟩
      · rw [if_neg hp] at hg
        cases hg
  · rintro (⟨e, he, rfl⟩ | ⟨rel, rfl, e, he, h1⟩)
    · exact Or.inl ⟨e, he, rfl⟩
    · right
      refine ⟨(dst ++ rel, e.2), ⟨e, he, ?_⟩, rfl⟩
      have hp : src.isPrefixOf e.1 = true :=
        List.isPrefixOf_iff_prefix.2 (by rw [h1]; exact List.prefix_append src rel)
      rw [if_pos hp, h1, List.drop_left]

theorem FS.mem_fileNames_copyDir_other (fs : FS) (src dst p : Path)
    (hd : ¬ InSubtree dst p) :
    p ∈ (fs.copyDir src dst).fileNames ↔ p ∈ fs.fileNames := by
  rw [FS.mem_fileNames_copyDir]
  constructor
  · rintro (h | ⟨rel, rfl, _⟩)
    · exact h
    · exact absurd (List.prefix_append dst rel) hd
  · exact Or.inl

/-- Counterexample to claim C5 as stated: for a source part that carries the
`delete-on-destroy.txt` marker, the clone's file set does NOT match the
source's file set exactly — the marker is present in the source but absent
from the clone. -/
theorem claim_C5_counterexample :
    (["data", "all_1_1_0", "delete-on-destroy.txt"] : Path)
      ∈ (FS.mk
          [(["data", "all_1_1_0", "data.bin"], .str "x"),
           (["data", "all_1_1_0", "delete-on-destroy.txt"], .str "")]
          [["data"], ["data", "all_1_1_0"]]).fileNames
    ∧ (["backup", "all_1_1_0", "delete-on-destroy.txt"] : Path)
      ∉ ((DataPartStorageOnDisk.mk ["data"] "all_1_1_0").clone
          (FS.mk
            [(["data", "all_1_1_0", "data.bin"], .str "x"),
             (["data", "all_1_1_0", "delete-on-destroy.txt"], .str "")]
            [["data"], ["data", "all_1_1_0"]])
          ["backup"] "all_1_1_0").1.fileNames := by
  decide

/-- Claim C5 (amended): `clone()` first recursively deletes the destination
directory if it already exists (visible in the trace order and in the
resulting file set), then copies the source's contents there, and the
resulting clone's file set matches the source's file set exactly *except*
for the `delete-on-destroy.txt` marker, which is stripped from the clone. -/
theorem claim_C5 (st : DataPartStorageOnDisk) (fs : FS) (dst : Path)
    (dirPath : String)
    (hdisj1 : ¬ (st.root_path ++ [st.part_dir]) <+: (dst ++ [dirPath]))
    (hdisj2 : ¬ (dst ++ [dirPath]) <+: (st.root_path ++ [st.part_dir]))
    (hwf : ¬ fs.ExistsPath (dst ++ [dirPath]) →
      ∀ p, InSubtree (dst ++ [dirPath]) p → p ∉ fs.fileNames) :
    ∃ fs' ops,
      st.clone fs dst dirPath
        = (fs', ops, DataPartStorageOnDisk.mk dst dirPath)
      ∧ (∀ rel, (dst ++ [dirPath] ++ rel) ∈ fs'.fileNames
          ↔ ((st.root_path ++ [st.part_dir] ++ rel) ∈ fs.fileNames
              ∧ rel ≠ ["delete-on-destroy.txt"]))
      ∧ (∀ p, ¬ InSubtree (dst ++ [dirPath]) p →
          (p ∈ fs'.fileNames ↔ p ∈ fs.fileNames))
      ∧ (fs.ExistsPath (dst ++ [dirPath]) →
          ops = [.removeRecursive (dst ++ [dirPath]), .createDirectories dst,
                 .copyDir (st.root_path ++ [st.part_dir]) (dst ++ [dirPath]),
                 .removeFileIfExists (dst ++ [dirPath] ++ ["delete-on-destroy.txt"])])
      ∧ (¬ fs.ExistsPath (dst ++ [dirPath]) →
          ops = [.createDirectories dst,
                 .copyDir (st.root_path ++ [st.part_dir]) (dst ++ [dirPath]),
                 .removeFileIfExists (dst ++ [dirPath] ++ ["delete-on-destroy.txt"])]) := by
  by_cases hex : fs.ExistsPath (dst ++ [dirPath])
  · refine ⟨(((fs.removeTree (dst ++ [dirPath])).mkdir dst).copyDir
        (st.root_path ++ [st.part_dir]) (dst ++ [dirPath])).eraseFile
        (dst ++ [dirPath] ++ ["delete-on-destroy.txt"]),
      [.removeRecursive (dst ++ [dirPath]), .createDirectories dst,
       .copyDir (st.root_path ++ [st.part_dir]) (dst ++ [dirPath]),
       .removeFileIfExists (dst ++ [dirPath] ++ ["delete-on-destroy.txt"])],
      ?_, ?_, ?_, ?_, ?_⟩
    next =>
      unfold DataPartStorageOnDisk.clone
      rw [if_pos hex]
      rfl
    next =>
      intro rel
      rw [FS.mem_fileNames_eraseFile]
      rw [FS.mem_fileNames_copyDir]
      constructor
      · rintro ⟨h | ⟨rel2, heq, hmem⟩, hne⟩
        · rw [FS.fileNames_mkdir] at h
          exact absurd ((FS.mem_fileNames_removeTree _ _ _).1 h).2
            (not_not_intro (List.prefix_append _ _))
        · have hrel : rel2 = rel := List.append_cancel_left heq.symm
          subst hrel
          rw [FS.fileNames_mkdir] at hmem
          have hmem2 := (FS.mem_fileNames_removeTree _ _ _).1 hmem
          refine ⟨hmem2.1, ?_⟩
          intro hmk
          exact hne (by rw [hmk])
      · rintro ⟨hmem, hne⟩
        refine ⟨Or.inr ⟨rel, rfl, ?_⟩, ?_⟩
        · rw [FS.fileNames_mkdir]
          exact (FS.mem_fileNames_removeTree _ _ _).2
            ⟨hmem, not_inSubtree_append _ _ hdisj2 hdisj1 rel⟩
        · intro heq
          exact hne (List.append_cancel_left heq)
      -- (fileNames of mkdir = fileNames base since files unchanged)
    next =>
      intro p hp
      rw [FS.mem_fileNames_eraseFile]
      rw [FS.mem_fileNames_copyDir_other _ _ _ _ hp]
      constructor
      · rintro ⟨h, _⟩
        rw [FS.fileNames_mkdir] at h
        exact ((FS.mem_fileNames_removeTree _ _ _).1 h).1
      · intro h
        refine ⟨?_, ?_⟩
        · rw [FS.fileNames_mkdir]
          exact (FS.mem_fileNames_removeTree _ _ _).2 ⟨h, hp⟩
        · intro heq
          exact hp (heq ▸ List.prefix_append _ _)
    next =>
      intro _
      rfl
    next =>
      intro hc
      exact absurd hex hc
  · refine ⟨((fs.mkdir dst).copyDir
        (st.root_path ++ [st.part_dir]) (dst ++ [dirPath])).eraseFile
        (dst ++ [dirPath] ++ ["delete-on-destroy.txt"]),
      [.createDirectories dst,
       .copyDir (st.root_path ++ [st.part_dir]) (dst ++ [dirPath]),
       .removeFileIfExists (dst ++ [dirPath] ++ ["delete-on-destroy.txt"])],
      ?_, ?_, ?_, ?_, ?_⟩
    next =>
      unfold DataPartStorageOnDisk.clone
      rw [if_neg hex]
      rfl
    next =>
      intro rel
      rw [FS.mem_fileNames_eraseFile]
      rw [FS.mem_fileNames_copyDir]
      constructor
      · rintro ⟨h | ⟨rel2, heq, hmem⟩, hne⟩
        · rw [FS.fileNames_mkdir] at h
          exact absurd h (hwf hex _ (List.prefix_append _ _))
        · have hrel : rel2 = rel := List.append_cancel_left heq.symm
          subst hrel
          rw [FS.fileNames_mkdir] at hmem
          refine ⟨hmem, ?_⟩
          intro hmk
          exact hne (by rw [hmk])
      · rintro ⟨hmem, hne⟩
        refine ⟨Or.inr ⟨rel, rfl, ?_⟩, ?_⟩
        · rw [FS.fileNames_mkdir]
          exact hmem
        · intro heq
          exact hne (List.append_cancel_left heq)
    next =>
      intro p hp
      rw [FS.mem_fileNames_eraseFile]
      rw [FS.mem_fileNames_copyDir_other _ _ _ _ hp]
      constructor
      · rintro ⟨h, _⟩
        rw [FS.fileNames_mkdir] at h
        exact h
      · intro h
        refine ⟨?_, ?_⟩
        · rw [FS.fileNames_mkdir]
          exact h
        · intro heq
          exact hp (heq ▸ List.prefix_append _ _)
    next =>
      intro hc
      exact absurd hc hex
    next =>
      intro _
      rfl

/-- Concrete filesystem for the C5 witness: source part with a data file and
the delete-on-destroy marker, and an already existing destination holding a
stale file. -/
def c5fs : FS :=
  FS.mk
    [(["data", "all_1_1_0", "data.bin"], .str "x"),
     (["data", "all_1_1_0", "delete-on-destroy.txt"], .str ""),
     (["backup", "all_1_1_0", "stale.bin"], .str "s")]
    [["data"], ["data", "all_1_1_0"], ["backup"], ["backup", "all_1_1_0"]]

/-- Witness for the amended C5 at a concrete clone over an existing
destination. -/
theorem claim_C5_witness :
    ((¬ ((["data"] : Path) ++ ["all_1_1_0"]) <+: ((["backup"] : Path) ++ ["all_1_1_0"]))
      ∧ (¬ ((["backup"] : Path) ++ ["all_1_1_0"]) <+: ((["data"] : Path) ++ ["all_1_1_0"]))
      ∧ (¬ c5fs.ExistsPath ((["backup"] : Path) ++ ["all_1_1_0"]) →
          ∀ p, InSubtree ((["backup"] : Path) ++ ["all_1_1_0"]) p → p ∉ c5fs.fileNames))
    ∧ (∃ fs' ops,
        (DataPartStorageOnDisk.mk ["data"] "all_1_1_0").clone c5fs ["backup"] "all_1_1_0"
          = (fs', ops, DataPartStorageOnDisk.mk ["backup"] "all_1_1_0")
        ∧ (∀ rel, ((["backup"] : Path) ++ ["all_1_1_0"] ++ rel) ∈ fs'.fileNames
            ↔ (((["data"] : Path) ++ ["all_1_1_0"] ++ rel) ∈ c5fs.fileNames
                ∧ rel ≠ ["delete-on-destroy.txt"]))
        ∧ (∀ p, ¬ InSubtree ((["backup"] : Path) ++ ["all_1_1_0"]) p →
            (p ∈ fs'.fileNames ↔ p ∈ c5fs.fileNames))
        ∧ (c5fs.ExistsPath ((["backup"] : Path) ++ ["all_1_1_0"]) →
            ops = [.removeRecursive ((["backup"] : Path) ++ ["all_1_1_0"]),
                   .createDirectories ["backup"],
                   .copyDir ((["data"] : Path) ++ ["all_1_1_0"])
                     ((["backup"] : Path) ++ ["all_1_1_0"]),
                   .removeFileIfExists ((["backup"] : Path) ++ ["all_1_1_0"]
                     ++ ["delete-on-destroy.txt"])])
        ∧ (¬ c5fs.ExistsPath ((["backup"] : Path) ++ ["all_1_1_0"]) →
            ops = [.createDirectories ["backup"],
                   .copyDir ((["data"] : Path) ++ ["all_1_1_0"])
                     ((["backup"] : Path) ++ ["all_1_1_0"]),
                   .removeFileIfExists ((["backup"] : Path) ++ ["all_1_1_0"]
                     ++ ["delete-on-destroy.txt"])])) :=
  ⟨⟨by decide, by decide,
    fun hc => absurd (by decide :
      c5fs.ExistsPath ((["backup"] : Path) ++ ["all_1_1_0"])) hc⟩,
   claim_C5 (DataPartStorageOnDisk.mk ["data"] "all_1_1_0") c5fs ["backup"]
     "all_1_1_0" (by decide) (by decide)
     (fun hc => absurd (by decide :
       c5fs.ExistsPath ((["backup"] : Path) ++ ["all_1_1_0"])) hc)⟩

/-! ## Claim C10: writeDeleteOnDestroyMarker swallows creation failures -/

/-- A disk together with a failure oracle for `createFile`: the backend may
throw a Poco exception when asked to create a given path. -/
structure FailingDisk where
  fs : FS
  createFails : Path → Bool

/-- `IDisk::createFile`, failing (a Poco exception) exactly where the oracle
says so, and creating an empty file otherwise. -/
def FailingDisk.createFile (d : FailingDisk) (p : Path) : Except Unit FailingDisk :=
  if d.createFails p then .error ()
  else .ok { d with fs := d.fs.writeFile p (.str "") }

/-- `DataPartStorageOnDisk::writeDeleteOnDestroyMarker`: create the
`delete-on-destroy.txt` marker; a Poco exception from the backend is caught,
logged at error severity and swallowed.  The return type is a plain state
(not an `Except`), so the operation always returns normally. -/
def writeDeleteOnDestroyMarker (st : DataPartStorageOnDisk) (d : FailingDisk) :
    FailingDisk :=
  match d.createFile (st.root_path ++ [st.part_dir, "delete-on-destroy.txt"]) with
  | .ok d' => d'
  | .error _ => d

/-- Claim C10: `writeDeleteOnDestroyMarker` never propagates a backend
exception: when the marker creation fails with a (Poco) exception the state
is returned unchanged — the error is only logged, and the call returns
normally even though the marker was not created; when creation succeeds the
marker file is written. -/
theorem claim_C10 (st : DataPartStorageOnDisk) (d : FailingDisk) :
    (d.createFails (st.root_path ++ [st.part_dir, "delete-on-destroy.txt"]) = true →
      writeDeleteOnDestroyMarker st d = d)
    ∧ (d.createFails (st.root_path ++ [st.part_dir, "delete-on-destroy.txt"]) = false →
      (writeDeleteOnDestroyMarker st d).fs
        = d.fs.writeFile (st.root_path ++ [st.part_dir, "delete-on-destroy.txt"])
            (.str "")) := by
  constructor
  · intro hfail
    unfold writeDeleteOnDestroyMarker FailingDisk.createFile
    rw [if_pos hfail]
  · intro hok
    unfold writeDeleteOnDestroyMarker FailingDisk.createFile
    rw [if_neg (by rw [hok]; exact Bool.false_ne_true)]

/-- Witness for C10 at a backend that fails to create exactly the marker
path: the operation returns normally with the state unchanged. -/
theorem claim_C10_witness :
    ((FailingDisk.mk (FS.mk [] [["data"], ["data", "part"]])
        (fun p => p == ["data", "part", "delete-on-destroy.txt"])).createFails
      (((["data"] : Path)) ++ ["part", "delete-on-destroy.txt"]) = true)
    ∧ writeDeleteOnDestroyMarker (DataPartStorageOnDisk.mk ["data"] "part")
        (FailingDisk.mk (FS.mk [] [["data"], ["data", "part"]])
          (fun p => p == ["data", "part", "delete-on-destroy.txt"]))
      = FailingDisk.mk (FS.mk [] [["data"], ["data", "part"]])
          (fun p => p == ["data", "part", "delete-on-destroy.txt"]) :=
  ⟨by decide,
   (claim_C10 (DataPartStorageOnDisk.mk ["data"] "part")
     (FailingDisk.mk (FS.mk [] [["data"], ["data", "part"]])
       (fun p => p == ["data", "part", "delete-on-destroy.txt"]))).1 (by decide)⟩

end CH
